import Mathlib

/-!
# Verification of the marketing-dashboard data engine (`src/app.py`)

A shallow embedding of the algorithmic core of the repository:

* the product-catalog builder inside `make_mock_data` (`app.py` lines 42-165),
* the basket construction helpers `add_order_item` (175-190) and
  `pick_order_items` (249-265),
* the bundle converter `apply_duo_conversion` (192-247),
* the per-order synthesis step of the main loop (267-343), and
* the filtering/aggregation logic of the `refresh_dashboard` callback
  (933-1354).

Python `int` arithmetic is embedded as `Int` (all prices and quantities in the
program are integers, so `round(x, 2)` is the identity on every sales value the
program produces and is not modelled separately).  Python dicts keyed by
product id are embedded as lists of entries with pairwise-distinct keys,
updated in place.  `random.*` draws are abstracted as explicit inputs: each
randomized choice becomes a parameter holding the drawn value, and
`random.shuffle` becomes a parameter constrained to be a permutation of the
list the code shuffles.
-/

/-- A catalog product, as built by `add_product` (`app.py` 74-91).  The
`include_in_selection` flag is not stored on the Python product dict but
controls membership in `products_by_group`; we store it and recover
`products_by_group` by filtering. -/
structure Product where
  product_id : String
  product_name : String
  product_category : String
  group_name : String
  price : Int
  size_ml : Option Nat
  base_name : String
  include_in_selection : Bool
deriving DecidableEq, Repr

/-- `f"P{n:03d}"` id minting for the product counter. -/
def productIdOf (n : Nat) : String :=
  if n < 10 then "P00" ++ toString n
  else if n < 100 then "P0" ++ toString n
  else "P" ++ toString n

/-- `add_product` (`app.py` 74-91): append a product with the next counter id.
The counter always equals one plus the number of products already added. -/
def addProduct (st : List Product) (name group : String) (price : Int)
    (size_ml : Option Nat) (base_name : Option String) (include_in_sel : Bool) :
    List Product :=
  st ++ [{ product_id := productIdOf (st.length + 1)
           product_name := name
           product_category := group
           group_name := group
           price := price
           size_ml := size_ml
           base_name := base_name.getD name
           include_in_selection := include_in_sel }]

/-- `size_label.replace("ml", "")`: delete every occurrence of the substring
`"ml"`, on the character list. -/
def removeMl : List Char → List Char
  | [] => []
  | 'm' :: 'l' :: rest => removeMl rest
  | c :: rest => c :: removeMl rest

/-- `int(...)` on a decimal string: `none` on a malformed one (Python
raises). -/
def natFromDigits (cs : List Char) : Option Nat :=
  if cs.isEmpty then none
  else
    cs.foldl
      (fun acc c =>
        acc.bind (fun n =>
          if '0' ≤ c && c ≤ '9' then some (n * 10 + (c.toNat - '0'.toNat)) else none))
      (some 0)

/-- Size-label parsing in `add_sized_products` (`app.py` 95):
`1000 if size_label == "1L" else int(size_label.replace("ml", ""))`.
A malformed label parses to 0 (the Python code would raise; the catalog uses
only well-formed labels). -/
def sizeOfLabel (label : String) : Nat :=
  if label == "1L" then 1000 else (natFromDigits (removeMl label.data)).getD 0

/-- `add_sized_products` (`app.py` 93-97). -/
def addSizedProducts (st : List Product) (base_name group : String)
    (sizes : List (String × Int)) : List Product :=
  sizes.foldl
    (fun st sp =>
      addProduct st (base_name ++ " " ++ sp.1) group sp.2
        (some (sizeOfLabel sp.1)) (some base_name) true)
    st

/-- The two lists of conversion-eligible base names (`app.py` 140-141). -/
def eligible_cold_brew : List String :=
  ["Original", "Dark Edition", "Fruity Delight", "Milky"]

def eligible_cold_drip : List String :=
  ["On the rock", "Monday Morning", "Natural wonder", "Vanilla Sundae"]

/-- The full catalog-construction sequence of `make_mock_data`
(`app.py` 99-165), in source order.  The two final loops mint one bundle SKU
per eligible base product, priced `product["price"] + lamoon["price"]`; a
failed registry lookup is modelled as skipping the product (the Python code
would raise `KeyError`; all lookups succeed on this catalog). -/
def catalog_products : List Product :=
  let st : List Product := []
  let st := addSizedProducts st "Original" "Cold brew" [("200ml", 75), ("1L", 265)]
  let st := addSizedProducts st "Dark Edition" "Cold brew" [("200ml", 75), ("1L", 265)]
  let st := addSizedProducts st "Fruity Delight" "Cold brew" [("200ml", 75), ("1L", 279)]
  let st := addSizedProducts st "Milky" "Cold brew" [("200ml", 85), ("1L", 299)]
  let st := addProduct st "Peachful" "Cold brew" 420 none none true
  let st := addProduct st "Saen Chai" "Cold brew" 420 none none true
  let st := addProduct st "Namwhan" "Cold brew" 380 none none true
  let st := addProduct st "Small Set" "Cold brew" 310 none none true
  let st := addSizedProducts st "On the rock" "Cold drip" [("500ml", 325), ("1L", 550)]
  let st := addSizedProducts st "Monday Morning" "Cold drip" [("500ml", 335), ("1L", 590)]
  let st := addSizedProducts st "Natural wonder" "Cold drip" [("500ml", 420)]
  let st := addSizedProducts st "Vanilla Sundae" "Cold drip" [("500ml", 445)]
  let st := addSizedProducts st "Itim Kati" "Cold drip" [("500ml", 445)]
  let st := addProduct st "Duo set Original" "Duo set" 170 none none true
  let st := addProduct st "Duo set Dark" "Duo set" 170 none none true
  let st := addProduct st "Duo set Fruity" "Duo set" 170 none none true
  let st := addProduct st "Duo set Milky" "Duo set" 170 none none true
  let st := addProduct st "umiro" "Matcha" 650 none none true
  let st := addProduct st "haruno" "Matcha" 650 none none true
  let st := addProduct st "rinro" "Matcha" 1280 none none true
  let st := addProduct st "asumi" "Matcha" 720 none none true
  let st := addProduct st "Mini Crosaint" "Bakery" 100 none none true
  let st := addProduct st "Original" "Coffee Bean" 235 none none true
  let st := addProduct st "Dark" "Coffee Bean" 235 none none true
  let st := addProduct st "Fruity" "Coffee Bean" 235 none none true
  let st := addProduct st "Milky" "Coffee Bean" 255 none none true
  let st := addProduct st "Coffee Drip D" "Drip Bag" 25 none none true
  let st := addProduct st "Coffee Drip MD" "Drip Bag" 25 none none true
  let st := addProduct st "Coffee Drip ML" "Drip Bag" 25 none none true
  let st := addProduct st "Coffee Drip M" "Drip Bag" 35 none none true
  let st := addProduct st "Tumbler" "Others" 350 none none true
  let st := addProduct st "Lamoon cup" "Others" 95 none none true
  let lamoonPrice : Int :=
    match st.find? (fun p => p.product_name == "Lamoon cup") with
    | some p => p.price
    | none => 0
  let st := eligible_cold_brew.foldl
    (fun st base_name =>
      match st.find? (fun p => p.product_name == base_name ++ " 1L") with
      | some product =>
          addProduct st ("Duo set " ++ base_name ++ " 1L") "Duo set"
            (product.price + lamoonPrice) product.size_ml (some base_name) false
      | none => st)
    st
  let st := eligible_cold_drip.foldl
    (fun st base_name =>
      match st.find? (fun p => p.product_name == base_name ++ " 500ml") with
      | some product =>
          addProduct st ("Duo set " ++ base_name) "Duo set"
            (product.price + lamoonPrice) product.size_ml (some base_name) false
      | none => st)
    st
  st

/-- `product_registry_by_id` (`app.py` 87): product ids are pairwise distinct,
so first-match lookup agrees with the Python dict. -/
def product_registry_by_id (pid : String) : Option Product :=
  catalog_products.find? (fun p => p.product_id == pid)

/-- `product_registry_by_name` (`app.py` 88): product names are pairwise
distinct, so first-match lookup agrees with the Python dict. -/
def product_registry_by_name (name : String) : Option Product :=
  catalog_products.find? (fun p => p.product_name == name)

/-- `products_by_group` (`app.py` 71, 89-90): the selectable products of a
group, in registration order. -/
def products_by_group (group : String) : List Product :=
  catalog_products.filter (fun p => p.include_in_selection && p.group_name == group)

/-- The accessory product `lamoon = product_registry_by_name["Lamoon cup"]`
(`app.py` 139), written out; `lamoon_is_registered` ties it to the catalog. -/
def lamoon : Product :=
  { product_id := "P038", product_name := "Lamoon cup", product_category := "Others"
    group_name := "Others", price := 95, size_ml := none, base_name := "Lamoon cup"
    include_in_selection := true }

/-! ## Baskets

A basket is the Python dict `order_items` mapping product id to an item entry
(`app.py` 175-190): a list of entries whose `product_id` keys are pairwise
distinct, in insertion order. -/

/-- One value of the `order_items` dict (`app.py` 182-190). -/
structure BasketEntry where
  product_id : String
  product_name : String
  product_category : String
  base_name : String
  size_ml : Option Nat
  quantity : Int
  item_sales : Int
deriving DecidableEq, Repr

/-- Dict lookup `order_items.get(pid)`. -/
def findEntry (oi : List BasketEntry) (pid : String) : Option BasketEntry :=
  oi.find? (fun e => e.product_id == pid)

/-- In-place mutation of the entry stored under `pid` (a Python dict-value
update).  With pairwise-distinct keys exactly one entry is rewritten. -/
def updateEntry (oi : List BasketEntry) (pid : String) (f : BasketEntry → BasketEntry) :
    List BasketEntry :=
  oi.map (fun e => if e.product_id == pid then f e else e)

/-- `del order_items[pid]`. -/
def removeEntry (oi : List BasketEntry) (pid : String) : List BasketEntry :=
  oi.filter (fun e => !(e.product_id == pid))

/-- `add_order_item` (`app.py` 175-190): merge into the entry for the same
product if present, else insert a fresh entry at the end. -/
def addOrderItem (oi : List BasketEntry) (p : Product) (q : Int) : List BasketEntry :=
  match findEntry oi p.product_id with
  | some _ =>
      updateEntry oi p.product_id
        (fun e => { e with quantity := e.quantity + q
                           item_sales := e.item_sales + p.price * q })
  | none =>
      oi ++ [{ product_id := p.product_id
               product_name := p.product_name
               product_category := p.product_category
               base_name := p.base_name
               size_ml := p.size_ml
               quantity := q
               item_sales := p.price * q }]

/-- `sum(item["item_sales"] for item in order_items.values())` (`app.py` 278). -/
def totalSales (oi : List BasketEntry) : Int :=
  (oi.map (fun e => e.item_sales)).sum

/-- Total unit count of a basket, `sum` of the entry quantities. -/
def totalQty (oi : List BasketEntry) : Int :=
  (oi.map (fun e => e.quantity)).sum

/-! ## Bundle conversion (`apply_duo_conversion`, `app.py` 192-247) -/

/-- The promotion-eligible channel set (`app.py` 172). -/
def eligible_channels : List String := ["Shopee", "Tiktok", "LineShopping", "Lazada"]

/-- The eligibility test of the `eligible_ids` loop (`app.py` 203-216). -/
def isEligibleBase (p : Product) : Bool :=
  (p.group_name == "Cold brew" && p.size_ml == some 1000
      && eligible_cold_brew.contains p.base_name)
  || (p.group_name == "Cold drip" && p.size_ml == some 500
      && eligible_cold_drip.contains p.base_name)

/-- The unit references one basket entry pushes into `eligible_ids`
(`app.py` 203-216): one copy of its product id per unit of quantity when the
registry product is an eligible base, else nothing.  A missing registry id
contributes nothing (Python would raise `KeyError`; under the basket
well-formedness used below every id is registered). -/
def eligChunk (entry : BasketEntry) : List String :=
  match product_registry_by_id entry.product_id with
  | some product =>
      if isEligibleBase product then
        List.replicate entry.quantity.toNat product.product_id
      else []
  | none => []

/-- `eligible_ids` (`app.py` 201-216), in basket order (before the shuffle). -/
def eligibleIds : List BasketEntry → List String
  | [] => []
  | entry :: rest => eligChunk entry ++ eligibleIds rest

/-- `f"Duo set {base_name} 1L"` for cold brew, `f"Duo set {base_name}"` for
cold drip (`app.py` 234-237). -/
def duoNameFor (p : Product) : String :=
  if p.group_name == "Cold brew" then "Duo set " ++ p.base_name ++ " 1L"
  else "Duo set " ++ p.base_name

/-- The entry decrement of one conversion iteration (`app.py` 227-228):
`quantity -= 1; item_sales -= product price`. -/
def stepFn (product : Product) (e : BasketEntry) : BasketEntry :=
  { e with quantity := e.quantity - 1, item_sales := e.item_sales - product.price }

/-- One iteration of the conversion loop (`app.py` 224-239): decrement the
source entry (delete it at zero) and add one unit of the bundle SKU.  A failed
registry or basket lookup is `none` (Python `KeyError`); the main theorems show
the loop never fails on the references the code feeds it. -/
def convertStep (oi : List BasketEntry) (pid : String) : Option (List BasketEntry) :=
  match product_registry_by_id pid with
  | none => none
  | some product =>
    match findEntry oi pid with
    | none => none
    | some entry =>
      let oi1 := updateEntry oi pid (stepFn product)
      let oi2 := if entry.quantity - 1 ≤ 0 then removeEntry oi1 pid else oi1
      match product_registry_by_name (duoNameFor product) with
      | none => none
      | some duo => some (addOrderItem oi2 duo 1)

/-- The conversion loop over the first `pairs` shuffled references
(`app.py` 224-239). -/
def runConversion : List String → List BasketEntry → Option (List BasketEntry)
  | [], oi => some oi
  | pid :: rest, oi =>
    match convertStep oi pid with
    | none => none
    | some oi' => runConversion rest oi'

/-- The final rewrite of the accessory entry (`app.py` 241-245): the leftover
accessory quantity with its sales re-derived as `quantity × price`. -/
def lamoonFixFn (remaining : Int) (e : BasketEntry) : BasketEntry :=
  { e with quantity := remaining, item_sales := remaining * lamoon.price }

/-- `apply_duo_conversion` (`app.py` 192-247).  `shuffled` is the post-shuffle
content of `eligible_ids` (line 221): callers constrain it to be a permutation
of `eligibleIds oi`. -/
def applyDuoConversion (oi : List BasketEntry) (channel : String)
    (shuffled : List String) : Option (List BasketEntry) :=
  if !(eligible_channels.contains channel) then some oi
  else
    match findEntry oi lamoon.product_id with
    | none => some oi
    | some lamoonEntry =>
      let lamoonQty := lamoonEntry.quantity
      let els := eligibleIds oi
      if els.isEmpty then some oi
      else
        let pairs : Int := min lamoonQty (els.length : Int)
        match runConversion (shuffled.take pairs.toNat) oi with
        | none => none
        | some oi' =>
          let remaining := lamoonQty - pairs
          if remaining ≤ 0 then some (removeEntry oi' lamoon.product_id)
          else some (updateEntry oi' lamoon.product_id (lamoonFixFn remaining))

/-- The number of (base, accessory) pairs the conversion turns into bundles:
`pairs = min(lamoon_qty, len(eligible_ids))` on the converting path
(`app.py` 222), and `0` on each early-return path. -/
def pairsConverted (oi : List BasketEntry) (channel : String) : Int :=
  if !(eligible_channels.contains channel) then 0
  else
    match findEntry oi lamoon.product_id with
    | none => 0
    | some lamoonEntry =>
      let els := eligibleIds oi
      if els.isEmpty then 0
      else min lamoonEntry.quantity (els.length : Int)

/-! ## Order synthesis (`app.py` 249-343)

Each `random.*` draw of the per-order loop is abstracted as an explicit input:
`pick_order_items` consumes a stream of (drawn product, continuation decision)
pairs, where the Bool stands for `random.random() < continuation_prob`; the
shuffle of `eligible_ids` is a permutation parameter; the remaining per-order
draws are fields of `OrderDraws`.  The stream is finite; the empty-stream case
(unreachable with real randomness) returns the basket built so far. -/

/-- The `pick_order_items` loop (`app.py` 249-265): add one unit per
iteration, stop at the 10-unit cap or on a continuation failure. -/
def pickOrderItemsAux : List (Product × Bool) → List BasketEntry → Nat → List BasketEntry
  | [], oi, _ => oi
  | (p, cont) :: rest, oi, total_qty =>
    if 10 ≤ total_qty then oi
    else
      let oi' := addOrderItem oi p 1
      if 10 ≤ total_qty + 1 then oi'
      else if !cont then oi'
      else pickOrderItemsAux rest oi' (total_qty + 1)

/-- `pick_order_items` (`app.py` 249-265); each stream element carries the
drawn product (`random.choices` group draw followed by `random.choice` within
`products_by_group`) and the continuation decision. -/
def pickOrderItems (draws : List (Product × Bool)) : List BasketEntry :=
  pickOrderItemsAux draws [] 0

/-- Add `v` to the running sum stored under key `k`, inserting the key on
first sight (a Python dict accumulation, `app.py` 279-283). -/
def bumpKey (acc : List (String × Int)) (k : String) (v : Int) : List (String × Int) :=
  if acc.any (fun e => e.1 == k) then
    acc.map (fun e => if e.1 == k then (e.1, e.2 + v) else e)
  else acc ++ [(k, v)]

/-- Dict accumulation of keyed values, in first-seen key order. -/
def accumBy : List (String × Int) → List (String × Int) → List (String × Int)
  | acc, [] => acc
  | acc, kv :: rest => accumBy (bumpKey acc kv.1 kv.2) rest

/-- `group_sales` (`app.py` 279-283): item sales accumulated per product
category over the converted basket, in first-seen order. -/
def groupSalesOf (oi : List BasketEntry) : List (String × Int) :=
  accumBy [] (oi.map (fun e => (e.product_category, e.item_sales)))

/-- `max(group_sales, key=group_sales.get) if group_sales else
random.choice(product_groups)` (`app.py` 284): the first key attaining the
maximal value, or the drawn fallback category when the basket is empty. -/
def dominantGroup (oi : List BasketEntry) (fallback : String) : String :=
  match groupSalesOf oi with
  | [] => fallback
  | kv :: rest => (rest.foldl (fun best e => if e.2 > best.2 then e else best) kv).1

/-- The per-order random draws of the main loop (`app.py` 267-322).  Cosmetic
columns whose draws feed nothing else (customer id, name, address, zipcode,
phone, tracking number, remark, points, username, purchase type, order type,
package id, packed counts) are elided. -/
structure OrderDraws where
  day_offset : Nat
  hour : Nat
  ship_offset : Nat
  platform : String
  customer_status : String
  order_status : String
  item_draws : List (Product × Bool)
  shuffled : List String
  fallback_group : String
deriving DecidableEq, Repr

/-- An `orders` record (`app.py` 286-322), restricted to the derived and
semantically constrained fields.  Dates are day indices: `order_day` is
`base_date + timedelta(days=day_offset)` with `base_date = today - 180`
(`app.py` 43) itself a day index. -/
structure OrderRec where
  order_id : String
  order_day : Nat
  hour : Nat
  ship_day : Nat
  channel : String
  customer_status : String
  order_status : String
  sales : Int
  group_name : String
deriving DecidableEq, Repr

/-- A `product_orders` record (`app.py` 329-343). -/
structure ItemRec where
  id : String
  order_id : String
  product_id : String
  product_name : String
  product_category : String
  base_name : String
  size_ml : Option Nat
  quantity : Int
  item_sales : Int
deriving DecidableEq, Repr

/-- The `enumerate(order_items.values())` loop (`app.py` 324-343); `round` on
the integer sales values is the identity and is not modelled. -/
def mkItemRecs (order_id : String) : Nat → List BasketEntry → List ItemRec
  | _, [] => []
  | i, e :: rest =>
      { id := "POL" ++ order_id ++ "-" ++ toString (i + 1)
        order_id := order_id
        product_id := e.product_id
        product_name := e.product_name
        product_category := e.product_category
        base_name := e.base_name
        size_ml := e.size_ml
        quantity := e.quantity
        item_sales := e.item_sales } :: mkItemRecs order_id (i + 1) rest

/-- One iteration of the 50000-order loop (`app.py` 267-343): build the
basket, convert it, derive the order totals and dominant category, and emit
the order and item records.  `base_day` is the day index of `base_date =
dt.date.today() - dt.timedelta(days=180)` (`app.py` 43), an input the program
takes from the wall clock. -/
def synthesizeOrder (base_day : Nat) (index : Nat) (d : OrderDraws) :
    Option (OrderRec × List ItemRec) :=
  let order_id := "ORD" ++ toString (10001 + index)
  let order_day := base_day + d.day_offset
  match applyDuoConversion (pickOrderItems d.item_draws) d.platform d.shuffled with
  | none => none
  | some order_items =>
    some
      ({ order_id := order_id
         order_day := order_day
         hour := d.hour
         ship_day := order_day + d.ship_offset
         channel := d.platform
         customer_status := d.customer_status
         order_status := d.order_status
         sales := totalSales order_items
         group_name := dominantGroup order_items d.fallback_group },
       mkItemRecs order_id 0 order_items)

/-! ## Aggregation pipeline (`refresh_dashboard`, `app.py` 933-1354)

The callback consumes the merged item/order dataframe `ORDER_ITEMS_DF`.  A row
is embedded with the columns the callback reads; the calendar attributes that
pandas derives from `time_stamp` (`dt.date`, `dt.year`, `dt.month`,
`dt.dayofweek`) are carried explicitly: `date` is the calendar date and
`weekday` its day of week (0 = Monday).  KPI card strings are embedded as the
numbers they format, with `none` standing for the `"N/A"` branch; each chart
figure is embedded as the data series it is drawn from, a blank figure being
the empty series.  The date range resolved from the period controls
(`app.py` 958-969) and the reference date `max_date` (line 1023, the maximum
order timestamp of the generated data) are arguments. -/

/-- A calendar date. -/
structure SDate where
  year : Int
  month : Nat
  day : Nat
deriving DecidableEq, Repr

/-- Date comparison, lexicographic on (year, month, day). -/
def SDate.le (a b : SDate) : Bool :=
  a.year < b.year
  || (a.year == b.year
      && (a.month < b.month || (a.month == b.month && a.day ≤ b.day)))

/-- Gregorian leap-year rule (used by `dt.timedelta` day arithmetic). -/
def isLeap (y : Int) : Bool :=
  y % 4 == 0 && (y % 100 != 0 || y % 400 == 0)

def daysInMonth (y : Int) (m : Nat) : Nat :=
  if m == 2 then (if isLeap y then 29 else 28)
  else if m == 4 || m == 6 || m == 9 || m == 11 then 30
  else 31

/-- `d - dt.timedelta(days=1)` (`app.py` 1025). -/
def prevDay (d : SDate) : SDate :=
  if 1 < d.day then ⟨d.year, d.month, d.day - 1⟩
  else if 1 < d.month then ⟨d.year, d.month - 1, daysInMonth d.year (d.month - 1)⟩
  else ⟨d.year - 1, 12, 31⟩

/-- A row of the merged `ORDER_ITEMS_DF` dataframe (`app.py` 347-352),
restricted to the columns `refresh_dashboard` reads. -/
structure Row where
  order_id : String
  channel : String
  product_category : String
  product_name : String
  base_name : String
  size_ml : Option Nat
  quantity : Int
  item_sales : Int
  customer_status : String
  date : SDate
  weekday : Nat
deriving DecidableEq, Repr

/-- `apply_date_filter` (`app.py` 361-363): rows with
`start_date <= time_stamp.date <= end_date`. -/
def apply_date_filter (rows : List Row) (start_date end_date : SDate) : List Row :=
  rows.filter (fun r => SDate.le start_date r.date && SDate.le r.date end_date)

/-- `MONTH_MAP` (`app.py` 13-26) as the `.dt.month.map(MONTH_MAP)` label. -/
def MONTH_MAP (m : Nat) : String :=
  match m with
  | 1 => "Jan" | 2 => "Feb" | 3 => "Mar" | 4 => "Apr" | 5 => "May" | 6 => "Jun"
  | 7 => "Jul" | 8 => "Aug" | 9 => "Sep" | 10 => "Oct" | 11 => "Nov" | 12 => "Dec"
  | _ => ""

def MONTH_ORDER : List String :=
  ["Jan", "Feb", "Mar", "Apr", "May", "Jun", "Jul", "Aug", "Sep", "Oct", "Nov", "Dec"]

/-- `day_map` (`app.py` 1074-1082), applied to `dt.dayofweek`. -/
def day_map (w : Nat) : String :=
  match w with
  | 0 => "Mon" | 1 => "Tue" | 2 => "Wed" | 3 => "Thu" | 4 => "Fri" | 5 => "Sat"
  | 6 => "Sun" | _ => ""

def week_order : List String := ["Mon", "Tue", "Wed", "Thu", "Fri", "Sat", "Sun"]

/-- Two-digit day used by `strftime("%d %b %Y")`. -/
def pad2 (n : Nat) : String :=
  if n < 10 then "0" ++ toString n else toString n

/-- `time_stamp.strftime("%d %b %Y")`, the custom-mode period label
(`app.py` 1107). -/
def dateLabel (d : SDate) : String :=
  pad2 d.day ++ " " ++ MONTH_MAP d.month ++ " " ++ toString d.year

/-- `items_base` (`app.py` 998-999): filter by selected channels, then by
selected categories. -/
def items_base (rows : List Row) (platforms groups : List String) : List Row :=
  (rows.filter (fun r => platforms.contains r.channel)).filter
    (fun r => groups.contains r.product_category)

/-- `items_for_charts` (`app.py` 1029-1034): the date-filtered base, further
restricted to the checked months in monthly mode (`selected_months or
MONTH_ORDER`: an empty selection falls back to all months). -/
def items_for_charts (rows : List Row) (period : String)
    (start_date end_date : SDate) (selected_months : List String)
    (platforms groups : List String) : List Row :=
  let filtered := apply_date_filter (items_base rows platforms groups) start_date end_date
  if period == "monthly" then
    let months := if selected_months.isEmpty then MONTH_ORDER else selected_months
    filtered.filter (fun r => months.contains (MONTH_MAP r.date.month))
  else filtered

/-- The period label a row is bucketed under (`app.py` 1094-1109). -/
def period_label (period : String) (r : Row) : String :=
  if period == "monthly" then MONTH_MAP r.date.month
  else if period == "daily" then day_map r.weekday
  else dateLabel r.date

/-- Insertion into a list sorted ascending by a `Nat` measure (stable). -/
def insertByKey (key : String × Int → Nat) (x : String × Int) :
    List (String × Int) → List (String × Int)
  | [] => [x]
  | y :: rest => if key x < key y then x :: y :: rest else y :: insertByKey key x rest

/-- Stable sort by a `Nat` measure, modelling `sort_values`. -/
def sortByKey (key : String × Int → Nat) (l : List (String × Int)) :
    List (String × Int) :=
  l.foldr (insertByKey key) []

/-- Sort descending by value (`sort_values("item_sales", ascending=False)`),
via an order-reversing measure bounded by the caller-supplied cap. -/
def sortDescByVal (l : List (String × Int)) : List (String × Int) :=
  sortByKey (fun kv => ((2 ^ 64 : Int) - kv.2).toNat) l

/-- Sort ascending by value (`sort_values("item_sales")`). -/
def sortAscByVal (l : List (String × Int)) : List (String × Int) :=
  sortByKey (fun kv => ((2 ^ 64 : Int) + kv.2).toNat) l

/-- Insertion into a date list sorted ascending. -/
def insertDate (x : SDate) : List SDate → List SDate
  | [] => [x]
  | y :: rest => if SDate.le x y then x :: y :: rest else y :: insertDate x rest

def sortDates (l : List SDate) : List SDate := l.foldr insertDate []

/-- `x_order` (`app.py` 1084-1114): the canonical label ordering — checked
months in calendar order for monthly, `Mon..Sun` for daily, distinct dates in
chronological order for custom. -/
def x_order_of (period : String) (items : List Row) (selected_months : List String) :
    List String :=
  if period == "monthly" then
    let chosen := if selected_months.isEmpty then MONTH_ORDER else selected_months
    MONTH_ORDER.filter (fun m => chosen.contains m)
  else if period == "daily" then week_order
  else (sortDates ((items.map (fun r => r.date)).dedup)).map dateLabel

/-- Lookup of the summed value for a label. -/
def lookupVal (table : List (String × Int)) (k : String) : Option Int :=
  (table.find? (fun kv => kv.1 == k)).map (fun kv => kv.2)

/-- `sales_trend` (`app.py` 1116-1118): group item sales by period label, then
`reindex` onto `x_order` when it is nonempty.  `reindex` keeps the value for a
label that was present and fills an absent label with NaN — embedded as
`Option Int` with `none` for NaN. -/
def sales_trend_of (period : String) (items : List Row) (selected_months : List String) :
    List (String × Option Int) :=
  let grouped := accumBy [] (items.map (fun r => (period_label period r, r.item_sales)))
  let xo := x_order_of period items selected_months
  if xo.isEmpty then grouped.map (fun kv => (kv.1, some kv.2))
  else xo.map (fun l => (l, lookupVal grouped l))

/-- `nunique()` over `order_id` (`app.py` 1049). -/
def nuniqueOrders (items : List Row) : Nat :=
  ((items.map (fun r => r.order_id)).dedup).length

/-- The `(year, month)` group keys of `items_for_charts`
(`app.py` 1052-1055). -/
def month_keys (items : List Row) : List (Int × Nat) :=
  (items.map (fun r => (r.date.year, r.date.month))).dedup

def month_group (items : List Row) (k : Int × Nat) : List Row :=
  items.filter (fun r => (r.date.year, r.date.month) == k)

/-- `monthly_aov` (`app.py` 1054-1057): per-(year, month) total sales and
distinct order counts. -/
def monthly_aov_table (items : List Row) : List (Int × Nat) :=
  (month_keys items).map
    (fun k => (((month_group items k).map (fun r => r.item_sales)).sum,
               nuniqueOrders (month_group items k)))

/-- The AOV KPI (`app.py` 1051-1064): the mean over the per-month
`total_sales / total_orders` ratios, a zero-order month contributing NA
(`replace(0, pd.NA)`), skipped by `mean`; `0` when there are no months or the
mean is NA.  Python computes in floats; the embedding uses exact rationals. -/
def aov_kpi (items : List Row) : ℚ :=
  let table := monthly_aov_table items
  if table.isEmpty then 0
  else
    let vals := table.filterMap
      (fun sc => if sc.2 = 0 then none else some ((sc.1 : ℚ) / (sc.2 : ℚ)))
    if vals.isEmpty then 0 else vals.sum / (vals.length : ℚ)

/-- `orders_for_charts` (`app.py` 1090-1092): `drop_duplicates("order_id")`,
keeping the first row of each order. -/
def drop_dup_orders : List String → List Row → List Row
  | _, [] => []
  | seen, r :: rest =>
    if seen.contains r.order_id then drop_dup_orders seen rest
    else r :: drop_dup_orders (r.order_id :: seen) rest

/-- `product_rollup` (`app.py` 1036-1046): sized variants collapse to their
base name, and the four base Coffee Bean names get the category prefix. -/
def product_rollup (r : Row) : String :=
  let roll := if r.size_ml.isSome then r.base_name else r.product_name
  if r.product_category == "Coffee Bean"
      && (["Original", "Dark", "Fruity", "Milky"].contains roll) then
    "Coffee Bean " ++ roll
  else roll

/-- The data series and KPI values `refresh_dashboard` emits (the slice the
claims are about).  KPI cards are `none` on the `"N/A"` branches; a blank
figure is an empty series. -/
structure AggResult where
  kpi_sales : Option Int
  kpi_orders : Option Nat
  kpi_aov : Option ℚ
  kpi_new : Option Nat
  kpi_new_share : Option ℚ
  sales_trend : List (String × Option Int)
  platform_sales : List (String × Int)
  group_sales : List (String × Int)
  top_products : List (String × Int)
deriving DecidableEq, Repr

/-- The all-N/A, all-blank result of the two early returns
(`app.py` 976-996 and 1001-1021). -/
def na_result : AggResult :=
  { kpi_sales := none, kpi_orders := none, kpi_aov := none, kpi_new := none
    kpi_new_share := none, sales_trend := [], platform_sales := []
    group_sales := [], top_products := [] }

/-- `first_of_current_month` (`app.py` 1024). -/
def first_of_current_month (reference_date : SDate) : SDate :=
  ⟨reference_date.year, reference_date.month, 1⟩

/-- `last_month_end` (`app.py` 1025). -/
def last_month_end_of (reference_date : SDate) : SDate :=
  prevDay (first_of_current_month reference_date)

/-- `last_month_start` (`app.py` 1026). -/
def last_month_start_of (reference_date : SDate) : SDate :=
  ⟨(last_month_end_of reference_date).year, (last_month_end_of reference_date).month, 1⟩

/-- `last_month_items` (`app.py` 1027): the channel- and category-filtered
records restricted to the calendar month preceding the reference date — the
selected date range plays no part. -/
def last_month_items_of (rows : List Row) (platforms groups : List String)
    (reference_date : SDate) : List Row :=
  apply_date_filter (items_base rows platforms groups)
    (last_month_start_of reference_date) (last_month_end_of reference_date)

/-- `refresh_dashboard` (`app.py` 933-1354) on the data slice above.
`start_date`/`end_date` are the range the period controls resolve to
(`app.py` 958-969) and `reference_date` is the module-level `max_date`. -/
def refresh_dashboard (rows : List Row) (period : String)
    (start_date end_date : SDate) (selected_months : List String)
    (platforms groups : List String) (reference_date : SDate) : AggResult :=
  if platforms.isEmpty || groups.isEmpty then na_result
  else
    let base := items_base rows platforms groups
    if base.isEmpty then na_result
    else
      let last_month_items := last_month_items_of rows platforms groups reference_date
      let charts := items_for_charts rows period start_date end_date selected_months
        platforms groups
      let total_sales := (last_month_items.map (fun r => r.item_sales)).sum
      let total_orders := nuniqueOrders last_month_items
      let new_customers :=
        nuniqueOrders (last_month_items.filter (fun r => r.customer_status == "New"))
      let new_share : ℚ :=
        if total_orders ≠ 0 then ((new_customers : ℚ) / (total_orders : ℚ)) * 100 else 0
      { kpi_sales := some total_sales
        kpi_orders := some total_orders
        kpi_aov := some (aov_kpi charts)
        kpi_new := some new_customers
        kpi_new_share := some new_share
        sales_trend := sales_trend_of period charts selected_months
        platform_sales :=
          sortDescByVal (accumBy [] (charts.map (fun r => (r.channel, r.item_sales))))
        group_sales :=
          sortAscByVal
            (accumBy [] (charts.map (fun r => (r.product_category, r.item_sales))))
        top_products :=
          (sortDescByVal
            (accumBy [] (charts.map (fun r => (product_rollup r, r.item_sales))))).take 5 }

/-! ## Verification-side definitions

Invariants of the baskets `make_mock_data` builds, and derived quantities the
theorems mention.  `add_order_item` keeps, for every entry, `item_sales =
registry price × quantity` with a positive quantity, and dict keys are
distinct; this is the well-formedness the conversion theorems assume. -/

/-- The quantity stored under a product id (0 when absent). -/
def qtyOf (oi : List BasketEntry) (pid : String) : Int :=
  match findEntry oi pid with
  | some e => e.quantity
  | none => 0

/-- Entry invariant: the product id is registered and the entry's sales equal
registry price times a positive quantity. -/
def entryWF (e : BasketEntry) : Prop :=
  match product_registry_by_id e.product_id with
  | some p => e.item_sales = p.price * e.quantity ∧ 1 ≤ e.quantity
  | none => False

instance (e : BasketEntry) : Decidable (entryWF e) := by
  unfold entryWF
  split <;> infer_instance

/-- Basket invariant: pairwise-distinct keys (a Python dict) and the entry
invariant everywhere. -/
def WFBasket (oi : List BasketEntry) : Prop :=
  ((oi.map (fun e => e.product_id)).Nodup) ∧ ∀ e ∈ oi, entryWF e

instance (oi : List BasketEntry) : Decidable (WFBasket oi) := by
  unfold WFBasket
  infer_instance

/-- The product id of a registered conversion-eligible base product. -/
def IsEligiblePid (pid : String) : Prop :=
  match product_registry_by_id pid with
  | some p => isEligibleBase p = true
  | none => False

instance (pid : String) : Decidable (IsEligiblePid pid) := by
  unfold IsEligiblePid
  split <;> infer_instance

/-- Per-product conversion facts checked over the whole catalog: every
eligible base has a registered bundle SKU priced at base price plus accessory
price, the bundle is itself registered under its id, is not an eligible base,
and neither product is the accessory. -/
def duoFactProp (p : Product) : Prop :=
  isEligibleBase p = true →
  match product_registry_by_name (duoNameFor p) with
  | some duo =>
      duo.price = p.price + lamoon.price
      ∧ product_registry_by_id duo.product_id = some duo
      ∧ isEligibleBase duo = false
      ∧ duo.product_id ≠ lamoon.product_id
      ∧ p.product_id ≠ lamoon.product_id
  | none => False

instance (p : Product) : Decidable (duoFactProp p) := by
  unfold duoFactProp
  split <;> infer_instance

/-- The merge function `add_order_item` applies to an existing entry. -/
def mergeFn (p : Product) (q : Int) (e : BasketEntry) : BasketEntry :=
  { e with quantity := e.quantity + q, item_sales := e.item_sales + p.price * q }

/-- The fresh entry `add_order_item` inserts. -/
def freshEntry (p : Product) (q : Int) : BasketEntry :=
  { product_id := p.product_id, product_name := p.product_name
    product_category := p.product_category, base_name := p.base_name
    size_ml := p.size_ml, quantity := q, item_sales := p.price * q }

/-- The per-calendar-month sales-to-distinct-orders ratio, in exact rational
arithmetic. -/
def month_ratio (items : List Row) (k : Int × Nat) : ℚ :=
  (((((month_group items k).map (fun r => r.item_sales)).sum : Int) : ℚ))
    / ((nuniqueOrders (month_group items k) : Nat) : ℚ)

/-! ## Concrete inputs used by the claim witnesses and counterexamples -/

/-- The catalog's `Mini Crosaint` product. -/
def miniCrosaintP : Product :=
  { product_id := "P028", product_name := "Mini Crosaint", product_category := "Bakery"
    group_name := "Bakery", price := 100, size_ml := none, base_name := "Mini Crosaint"
    include_in_selection := true }

/-- The catalog's `Original 1L` product. -/
def origLP : Product :=
  { product_id := "P002", product_name := "Original 1L", product_category := "Cold brew"
    group_name := "Cold brew", price := 265, size_ml := some 1000
    base_name := "Original", include_in_selection := true }

/-- A well-formed basket: two `Original 1L` and one `Lamoon cup`. -/
def exBasketC1 : List BasketEntry :=
  [{ product_id := "P002", product_name := "Original 1L"
     product_category := "Cold brew", base_name := "Original", size_ml := some 1000
     quantity := 2, item_sales := 530 },
   { product_id := "P038", product_name := "Lamoon cup", product_category := "Others"
     base_name := "Lamoon cup", size_ml := none, quantity := 1, item_sales := 95 }]

/-- A well-formed basket: one `Original 1L` and one `Lamoon cup`. -/
def exBasketC4 : List BasketEntry :=
  [{ product_id := "P002", product_name := "Original 1L"
     product_category := "Cold brew", base_name := "Original", size_ml := some 1000
     quantity := 1, item_sales := 265 },
   { product_id := "P038", product_name := "Lamoon cup", product_category := "Others"
     base_name := "Lamoon cup", size_ml := none, quantity := 1, item_sales := 95 }]

/-- A single-item draw record for an ineligible channel. -/
def exOrderDrawsC2 : OrderDraws :=
  { day_offset := 10, hour := 9, ship_offset := 1, platform := "Facebook"
    customer_status := "New", order_status := "Pending"
    item_draws := [(miniCrosaintP, false)], shuffled := [], fallback_group := "Others" }

/-- The order record `synthesizeOrder 0 0 exOrderDrawsC2` produces. -/
def exOrderC2 : OrderRec :=
  { order_id := "ORD10001", order_day := 10, hour := 9, ship_day := 11
    channel := "Facebook", customer_status := "New", order_status := "Pending"
    sales := 100, group_name := "Bakery" }

/-- The item records `synthesizeOrder 0 0 exOrderDrawsC2` produces. -/
def exItemsC2 : List ItemRec :=
  [{ id := "POLORD10001-1", order_id := "ORD10001", product_id := "P028"
     product_name := "Mini Crosaint", product_category := "Bakery"
     base_name := "Mini Crosaint", size_ml := none, quantity := 1, item_sales := 100 }]

/-- A two-draw item stream. -/
def exDrawsC3 : List (Product × Bool) := [(miniCrosaintP, true), (miniCrosaintP, false)]

/-- A draw record used to exhibit the base-date dependence of synthesis. -/
def exOrderDrawsC8 : OrderDraws :=
  { day_offset := 3, hour := 12, ship_offset := 2, platform := "Facebook"
    customer_status := "Returning", order_status := "Shipped"
    item_draws := [(miniCrosaintP, false)], shuffled := [], fallback_group := "Matcha" }

/-- An item-draw stream drawing the accessory and an eligible base. -/
def exDrawsC9 : List (Product × Bool) := [(lamoon, true), (origLP, false)]

/-- A single dataframe row: a Tuesday sale on Shopee. -/
def exRowC5 : Row :=
  { order_id := "O1", channel := "Shopee", product_category := "Cold brew"
    product_name := "Original 1L", base_name := "Original", size_ml := some 1000
    quantity := 1, item_sales := 500, customer_status := "New"
    date := ⟨2026, 10, 6⟩, weekday := 1 }

/-- Three rows over two calendar months with unequal order counts, on which
the mean-of-monthly-ratios AOV (75) differs from the range-wide ratio
(200/3). -/
def exRowsC6 : List Row :=
  [{ order_id := "A", channel := "Shopee", product_category := "Cold brew"
     product_name := "X", base_name := "X", size_ml := none, quantity := 1
     item_sales := 100, customer_status := "New", date := ⟨2026, 8, 3⟩, weekday := 0 },
   { order_id := "B", channel := "Shopee", product_category := "Cold brew"
     product_name := "X", base_name := "X", size_ml := none, quantity := 1
     item_sales := 60, customer_status := "New", date := ⟨2026, 9, 4⟩, weekday := 0 },
   { order_id := "C", channel := "Shopee", product_category := "Cold brew"
     product_name := "X", base_name := "X", size_ml := none, quantity := 1
     item_sales := 40, customer_status := "New", date := ⟨2026, 9, 5⟩, weekday := 0 }]

/-! ## Catalog and conversion sanity checks -/

example : product_registry_by_name "Lamoon cup" = some lamoon := by decide

example : catalog_products.length = 46 := by decide

example : product_registry_by_name "Duo set Original 1L" =
    some { product_id := "P039", product_name := "Duo set Original 1L"
           product_category := "Duo set", group_name := "Duo set", price := 360
           size_ml := some 1000, base_name := "Original"
           include_in_selection := false } := by decide

/-- A two-entry basket: one `Original 1L` and one `Lamoon cup`. -/
example :
    applyDuoConversion
      [{ product_id := "P002", product_name := "Original 1L"
         product_category := "Cold brew", base_name := "Original"
         size_ml := some 1000, quantity := 1, item_sales := 265 },
       { product_id := "P038", product_name := "Lamoon cup"
         product_category := "Others", base_name := "Lamoon cup"
         size_ml := none, quantity := 1, item_sales := 95 }]
      "Shopee" ["P002"]
    = some [{ product_id := "P039", product_name := "Duo set Original 1L"
              product_category := "Duo set", base_name := "Original"
              size_ml := some 1000, quantity := 1, item_sales := 360 }] := by
  decide

/-! ## Lemmas about basket operations -/

theorem findEntry_some_key {oi : List BasketEntry} {pid : String} {e : BasketEntry}
    (h : findEntry oi pid = some e) : e.product_id = pid := by
  have := List.find?_some h
  simpa using this

theorem findEntry_some_mem {oi : List BasketEntry} {pid : String} {e : BasketEntry}
    (h : findEntry oi pid = some e) : e ∈ oi :=
  List.mem_of_find?_eq_some h

theorem findEntry_eq_none {oi : List BasketEntry} {pid : String} :
    findEntry oi pid = none ↔ ∀ e ∈ oi, e.product_id ≠ pid := by
  simp [findEntry, List.find?_eq_none]

theorem findEntry_cons {a : BasketEntry} {oi : List BasketEntry} {pid : String} :
    findEntry (a :: oi) pid =
      if a.product_id = pid then some a else findEntry oi pid := by
  simp only [findEntry, List.find?]
  by_cases h : a.product_id = pid
  · simp [h]
  · have hb : (a.product_id == pid) = false := by simpa using h
    rw [hb]
    simp [h]

theorem updateEntry_cons {a : BasketEntry} {oi : List BasketEntry} {pid : String}
    {f : BasketEntry → BasketEntry} :
    updateEntry (a :: oi) pid f =
      (if a.product_id = pid then f a else a) :: updateEntry oi pid f := by
  by_cases h : a.product_id = pid <;> simp [updateEntry, h]

theorem removeEntry_cons {a : BasketEntry} {oi : List BasketEntry} {pid : String} :
    removeEntry (a :: oi) pid =
      if a.product_id = pid then removeEntry oi pid else a :: removeEntry oi pid := by
  by_cases h : a.product_id = pid <;> simp [removeEntry, h]

theorem updateEntry_eq_self {oi : List BasketEntry} {pid : String}
    {f : BasketEntry → BasketEntry} (h : ∀ e ∈ oi, e.product_id ≠ pid) :
    updateEntry oi pid f = oi := by
  induction oi with
  | nil => rfl
  | cons a rest ih =>
      rw [updateEntry_cons, if_neg (h a (by simp)), ih (fun e he => h e (by simp [he]))]

theorem removeEntry_eq_self {oi : List BasketEntry} {pid : String}
    (h : ∀ e ∈ oi, e.product_id ≠ pid) : removeEntry oi pid = oi := by
  induction oi with
  | nil => rfl
  | cons a rest ih =>
      rw [removeEntry_cons, if_neg (h a (by simp)), ih (fun e he => h e (by simp [he]))]

theorem updateEntry_keys {oi : List BasketEntry} {pid : String}
    {f : BasketEntry → BasketEntry} (hf : ∀ e, (f e).product_id = e.product_id) :
    (updateEntry oi pid f).map (fun e => e.product_id)
      = oi.map (fun e => e.product_id) := by
  induction oi with
  | nil => rfl
  | cons a rest ih =>
      rw [updateEntry_cons]
      by_cases h : a.product_id = pid <;> simp [h, hf, ih]

theorem sum_map_updateEntry (g : BasketEntry → Int) {oi : List BasketEntry}
    {pid : String} {e : BasketEntry} {f : BasketEntry → BasketEntry}
    (hN : (oi.map (fun x => x.product_id)).Nodup)
    (h : findEntry oi pid = some e) :
    ((updateEntry oi pid f).map g).sum = (oi.map g).sum + (g (f e) - g e) := by
  induction oi with
  | nil => simp [findEntry] at h
  | cons a rest ih =>
      rw [findEntry_cons] at h
      rw [List.map_cons, List.nodup_cons] at hN
      rw [updateEntry_cons]
      by_cases hk : a.product_id = pid
      · rw [if_pos hk] at h
        cases h
        have hrest : ∀ x ∈ rest, x.product_id ≠ pid := by
          intro x hx hxe
          apply hN.1
          rw [hk, ← hxe]
          exact List.mem_map_of_mem (fun e => e.product_id) hx
        rw [if_pos hk, updateEntry_eq_self hrest]
        simp only [List.map_cons, List.sum_cons]
        ring
      · rw [if_neg hk] at h
        rw [if_neg hk]
        have := ih hN.2 h
        simp only [List.map_cons, List.sum_cons, this]
        ring

theorem sum_map_removeEntry (g : BasketEntry → Int) {oi : List BasketEntry}
    {pid : String} {e : BasketEntry}
    (hN : (oi.map (fun x => x.product_id)).Nodup)
    (h : findEntry oi pid = some e) :
    ((removeEntry oi pid).map g).sum = (oi.map g).sum - g e := by
  induction oi with
  | nil => simp [findEntry] at h
  | cons a rest ih =>
      rw [findEntry_cons] at h
      rw [List.map_cons, List.nodup_cons] at hN
      rw [removeEntry_cons]
      by_cases hk : a.product_id = pid
      · rw [if_pos hk] at h
        cases h
        have hrest : ∀ x ∈ rest, x.product_id ≠ pid := by
          intro x hx hxe
          apply hN.1
          rw [hk, ← hxe]
          exact List.mem_map_of_mem (fun e => e.product_id) hx
        rw [if_pos hk, removeEntry_eq_self hrest]
        simp only [List.map_cons, List.sum_cons]
        ring
      · rw [if_neg hk] at h
        rw [if_neg hk]
        have := ih hN.2 h
        simp only [List.map_cons, List.sum_cons, this]
        ring

theorem findEntry_updateEntry_self {oi : List BasketEntry} {pid : String}
    {e : BasketEntry} {f : BasketEntry → BasketEntry}
    (h : findEntry oi pid = some e) (hf : ∀ x, (f x).product_id = x.product_id) :
    findEntry (updateEntry oi pid f) pid = some (f e) := by
  induction oi with
  | nil => simp [findEntry] at h
  | cons a rest ih =>
      rw [findEntry_cons] at h
      rw [updateEntry_cons]
      by_cases hk : a.product_id = pid
      · rw [if_pos hk] at h
        cases h
        rw [if_pos hk, findEntry_cons, if_pos (by rw [hf]; exact hk)]
      · rw [if_neg hk] at h
        rw [if_neg hk, findEntry_cons, if_neg hk]
        exact ih h

theorem findEntry_updateEntry_ne {oi : List BasketEntry} {pid q : String}
    {f : BasketEntry → BasketEntry} (hq : q ≠ pid)
    (hf : ∀ x, (f x).product_id = x.product_id) :
    findEntry (updateEntry oi pid f) q = findEntry oi q := by
  induction oi with
  | nil => rfl
  | cons a rest ih =>
      rw [updateEntry_cons]
      by_cases hk : a.product_id = pid
      · rw [if_pos hk, findEntry_cons, findEntry_cons, hf,
          if_neg (by rw [hk]; exact fun hh => hq hh.symm),
          if_neg (by rw [hk]; exact fun hh => hq hh.symm)]
        exact ih
      · rw [if_neg hk, findEntry_cons, findEntry_cons]
        by_cases hk2 : a.product_id = q
        · rw [if_pos hk2, if_pos hk2]
        · rw [if_neg hk2, if_neg hk2]
          exact ih

theorem findEntry_removeEntry_self {oi : List BasketEntry} {pid : String} :
    findEntry (removeEntry oi pid) pid = none := by
  rw [findEntry_eq_none]
  intro e he
  have := List.of_mem_filter he
  simpa using this

theorem findEntry_removeEntry_ne {oi : List BasketEntry} {pid q : String}
    (hq : q ≠ pid) : findEntry (removeEntry oi pid) q = findEntry oi q := by
  induction oi with
  | nil => rfl
  | cons a rest ih =>
      rw [removeEntry_cons]
      by_cases hk : a.product_id = pid
      · rw [if_pos hk, findEntry_cons, if_neg (by rw [hk]; exact fun hh => hq hh.symm)]
        exact ih
      · rw [if_neg hk, findEntry_cons, findEntry_cons]
        by_cases hk2 : a.product_id = q
        · rw [if_pos hk2, if_pos hk2]
        · rw [if_neg hk2, if_neg hk2]
          exact ih

theorem removeEntry_sublist (oi : List BasketEntry) (pid : String) :
    (removeEntry oi pid).Sublist oi :=
  List.filter_sublist oi

theorem removeEntry_nodup_keys {oi : List BasketEntry} {pid : String}
    (hN : (oi.map (fun x => x.product_id)).Nodup) :
    ((removeEntry oi pid).map (fun x => x.product_id)).Nodup :=
  List.Nodup.sublist (List.Sublist.map _ (removeEntry_sublist oi pid)) hN

theorem mem_removeEntry {oi : List BasketEntry} {pid : String} {x : BasketEntry}
    (hx : x ∈ oi) (hk : x.product_id ≠ pid) : x ∈ removeEntry oi pid := by
  refine List.mem_filter.2 ⟨hx, ?_⟩
  simpa using hk

theorem mem_updateEntry_cases {oi : List BasketEntry} {pid : String}
    {f : BasketEntry → BasketEntry} {x : BasketEntry}
    (hx : x ∈ updateEntry oi pid f) :
    (x ∈ oi ∧ x.product_id ≠ pid) ∨ (∃ y ∈ oi, y.product_id = pid ∧ x = f y) := by
  rcases List.mem_map.1 hx with ⟨y, hy, hxy⟩
  by_cases hk : y.product_id = pid
  · right
    refine ⟨y, hy, hk, ?_⟩
    rw [← hxy]
    simp [hk]
  · left
    have hb : (y.product_id == pid) = false := by simpa using hk
    have hxe : x = y := by rw [← hxy]; simp [hb]
    subst hxe
    exact ⟨hy, hk⟩

theorem mem_updateEntry_of_mem {oi : List BasketEntry} {pid : String}
    {f : BasketEntry → BasketEntry} {x : BasketEntry}
    (hx : x ∈ oi) (hk : x.product_id ≠ pid) : x ∈ updateEntry oi pid f := by
  refine List.mem_map.2 ⟨x, hx, ?_⟩
  have hb : (x.product_id == pid) = false := by simpa using hk
  simp [hb]

/-! ## Lemmas about `addOrderItem` -/

theorem addOrderItem_eq_update {oi : List BasketEntry} {p : Product} {q : Int}
    {e : BasketEntry} (h : findEntry oi p.product_id = some e) :
    addOrderItem oi p q = updateEntry oi p.product_id (mergeFn p q) := by
  unfold addOrderItem
  rw [h]
  rfl

theorem addOrderItem_eq_append {oi : List BasketEntry} {p : Product} {q : Int}
    (h : findEntry oi p.product_id = none) :
    addOrderItem oi p q = oi ++ [freshEntry p q] := by
  unfold addOrderItem
  rw [h]
  rfl

theorem totalSales_addOrderItem {oi : List BasketEntry} {p : Product} {q : Int}
    (hN : (oi.map (fun x => x.product_id)).Nodup) :
    totalSales (addOrderItem oi p q) = totalSales oi + p.price * q := by
  cases h : findEntry oi p.product_id with
  | some e =>
      rw [addOrderItem_eq_update h]
      have := sum_map_updateEntry (fun x => x.item_sales) hN h (f := mergeFn p q)
      simp only [totalSales, this, mergeFn]
      ring
  | none =>
      rw [addOrderItem_eq_append h]
      simp only [totalSales, List.map_append, List.sum_append, freshEntry]
      simp

theorem totalQty_addOrderItem {oi : List BasketEntry} {p : Product} {q : Int}
    (hN : (oi.map (fun x => x.product_id)).Nodup) :
    totalQty (addOrderItem oi p q) = totalQty oi + q := by
  cases h : findEntry oi p.product_id with
  | some e =>
      rw [addOrderItem_eq_update h]
      have := sum_map_updateEntry (fun x => x.quantity) hN h (f := mergeFn p q)
      simp only [totalQty, this, mergeFn]
      ring
  | none =>
      rw [addOrderItem_eq_append h]
      simp only [totalQty, List.map_append, List.sum_append, freshEntry]
      simp

theorem addOrderItem_nodup_keys {oi : List BasketEntry} {p : Product} {q : Int}
    (hN : (oi.map (fun x => x.product_id)).Nodup) :
    ((addOrderItem oi p q).map (fun x => x.product_id)).Nodup := by
  cases h : findEntry oi p.product_id with
  | some e =>
      rw [addOrderItem_eq_update h, updateEntry_keys (f := mergeFn p q) (fun e => rfl)]
      exact hN
  | none =>
      have hnot : p.product_id ∉ oi.map (fun x => x.product_id) := by
        intro hmem
        rcases List.mem_map.1 hmem with ⟨y, hy, hk⟩
        exact (findEntry_eq_none.1 h y hy) hk
      rw [addOrderItem_eq_append h]
      simp only [List.map_append, List.map_cons, List.map_nil, freshEntry]
      exact List.Nodup.append hN (List.nodup_singleton _)
        (by simpa [List.disjoint_right] using hnot)

theorem findEntry_append_single {oi : List BasketEntry} {x : BasketEntry}
    {pid : String} :
    findEntry (oi ++ [x]) pid =
      match findEntry oi pid with
      | some e => some e
      | none => if x.product_id = pid then some x else none := by
  induction oi with
  | nil => simp [findEntry_cons, findEntry]
  | cons a rest ih =>
      rw [List.cons_append, findEntry_cons, findEntry_cons]
      by_cases hk : a.product_id = pid
      · rw [if_pos hk, if_pos hk]
      · rw [if_neg hk, if_neg hk]
        exact ih

theorem findEntry_addOrderItem_ne {oi : List BasketEntry} {p : Product} {q : Int}
    {pid : String} (hne : pid ≠ p.product_id) :
    findEntry (addOrderItem oi p q) pid = findEntry oi pid := by
  cases h : findEntry oi p.product_id with
  | some e =>
      rw [addOrderItem_eq_update h]
      exact findEntry_updateEntry_ne hne (fun x => rfl)
  | none =>
      rw [addOrderItem_eq_append h, findEntry_append_single]
      cases h2 : findEntry oi pid with
      | some e => rfl
      | none =>
          rw [if_neg ?_]
          simp only [freshEntry]
          exact fun hh => hne hh.symm

theorem findEntry_addOrderItem_self {oi : List BasketEntry} {p : Product} {q : Int} :
    ∃ e, findEntry (addOrderItem oi p q) p.product_id = some e := by
  cases h : findEntry oi p.product_id with
  | some e =>
      rw [addOrderItem_eq_update h]
      exact ⟨_, findEntry_updateEntry_self h (fun x => rfl)⟩
  | none =>
      rw [addOrderItem_eq_append h, findEntry_append_single, h]
      exact ⟨freshEntry p q, by simp [freshEntry]⟩

/-! ## Catalog facts -/

theorem catalog_nodup_ids : (catalog_products.map (fun p => p.product_id)).Nodup := by
  decide

theorem catalog_reg_self :
    ∀ p ∈ catalog_products, product_registry_by_id p.product_id = some p := by
  decide

theorem duoFacts_all : ∀ p ∈ catalog_products, duoFactProp p := by decide

theorem lamoon_by_id : product_registry_by_id lamoon.product_id = some lamoon := by
  decide

theorem reg_by_id_mem {pid : String} {p : Product}
    (h : product_registry_by_id pid = some p) :
    p ∈ catalog_products ∧ p.product_id = pid := by
  refine ⟨List.mem_of_find?_eq_some h, ?_⟩
  have := List.find?_some h
  simpa using this

theorem reg_by_name_mem {name : String} {p : Product}
    (h : product_registry_by_name name = some p) :
    p ∈ catalog_products ∧ p.product_name = name := by
  refine ⟨List.mem_of_find?_eq_some h, ?_⟩
  have := List.find?_some h
  simpa using this

theorem reg_self_of_mem {p : Product} (hp : p ∈ catalog_products) :
    product_registry_by_id p.product_id = some p :=
  catalog_reg_self p hp

/-- The structured form of `duoFacts_all` for one eligible base product. -/
theorem duo_facts {pid : String} {p : Product}
    (h : product_registry_by_id pid = some p) (he : isEligibleBase p = true) :
    ∃ duo, product_registry_by_name (duoNameFor p) = some duo
      ∧ duo.price = p.price + lamoon.price
      ∧ product_registry_by_id duo.product_id = some duo
      ∧ isEligibleBase duo = false
      ∧ duo.product_id ≠ lamoon.product_id
      ∧ p.product_id ≠ lamoon.product_id := by
  have hmem := (reg_by_id_mem h).1
  have hfact := duoFacts_all p hmem he
  revert hfact
  cases hduo : product_registry_by_name (duoNameFor p) with
  | none => exact fun hfact => hfact.elim
  | some duo =>
      exact fun hfact =>
        ⟨duo, rfl, hfact.1, hfact.2.1, hfact.2.2.1, hfact.2.2.2.1, hfact.2.2.2.2⟩

theorem isEligiblePid_elim {pid : String} (h : IsEligiblePid pid) :
    ∃ p, product_registry_by_id pid = some p ∧ isEligibleBase p = true := by
  unfold IsEligiblePid at h
  revert h
  cases hr : product_registry_by_id pid with
  | none => exact fun h => h.elim
  | some p => exact fun h => ⟨p, rfl, h⟩

theorem entryWF_elim {e : BasketEntry} (h : entryWF e) :
    ∃ p, product_registry_by_id e.product_id = some p
      ∧ e.item_sales = p.price * e.quantity ∧ 1 ≤ e.quantity := by
  unfold entryWF at h
  revert h
  cases hr : product_registry_by_id e.product_id with
  | none => exact fun h => h.elim
  | some p => exact fun h => ⟨p, rfl, h.1, h.2⟩

theorem entryWF_intro {e : BasketEntry} {p : Product}
    (hr : product_registry_by_id e.product_id = some p)
    (hs : e.item_sales = p.price * e.quantity) (hq : 1 ≤ e.quantity) :
    entryWF e := by
  unfold entryWF
  rw [hr]
  exact ⟨hs, hq⟩

/-! ## Lemmas about `eligibleIds` -/

/-- What `eligChunk` can be: empty, or one reference per unit for a
registered eligible base. -/
theorem eligChunk_eq (entry : BasketEntry) :
    eligChunk entry = []
    ∨ ∃ p, product_registry_by_id entry.product_id = some p
        ∧ isEligibleBase p = true
        ∧ eligChunk entry = List.replicate entry.quantity.toNat entry.product_id := by
  unfold eligChunk
  cases hr : product_registry_by_id entry.product_id with
  | none => left; rfl
  | some p =>
      cases he : isEligibleBase p with
      | false => left; simp [he]
      | true =>
          right
          refine ⟨p, rfl, he, ?_⟩
          simp only [he, if_true]
          rw [(reg_by_id_mem hr).2]

theorem eligChunk_key {entry : BasketEntry} {pid : String}
    (h : pid ∈ eligChunk entry) : pid = entry.product_id := by
  rcases eligChunk_eq entry with hc | ⟨p, hr, he, hrep⟩
  · rw [hc] at h; cases h
  · rw [hrep] at h
    exact (List.mem_replicate.1 h).2

theorem eligChunk_elig {entry : BasketEntry} {pid : String}
    (h : pid ∈ eligChunk entry) : IsEligiblePid pid := by
  rcases eligChunk_eq entry with hc | ⟨p, hr, he, hrep⟩
  · rw [hc] at h; cases h
  · rw [hrep] at h
    have hkey := (List.mem_replicate.1 h).2
    unfold IsEligiblePid
    rw [hkey, hr]
    exact he

theorem eligChunk_count_le {entry : BasketEntry} (hwf : entryWF entry)
    {pid : String} :
    ((eligChunk entry).count pid : Int) ≤
      if entry.product_id = pid then entry.quantity else 0 := by
  rcases entryWF_elim hwf with ⟨p, hr, hs, hq⟩
  rcases eligChunk_eq entry with hc | ⟨p', hr', he', hrep⟩
  · rw [hc]
    by_cases hk : entry.product_id = pid
    · rw [if_pos hk]; simp; omega
    · rw [if_neg hk]; simp
  · rw [hrep, List.count_replicate]
    by_cases hk : entry.product_id = pid
    · have hb : (entry.product_id == pid) = true := by simpa using hk
      rw [if_pos hk]
      simp only [hb, if_true]
      omega
    · have hb : (entry.product_id == pid) = false := by simpa using hk
      rw [if_neg hk]
      simp [hb]

/-! ## Well-formedness preservation -/

theorem WFBasket_addOrderItem {oi : List BasketEntry} {p : Product} {q : Int}
    (hwf : WFBasket oi) (hp : product_registry_by_id p.product_id = some p)
    (hq : 1 ≤ q) : WFBasket (addOrderItem oi p q) := by
  obtain ⟨hN, hent⟩ := hwf
  refine ⟨addOrderItem_nodup_keys hN, ?_⟩
  intro x hx
  cases h : findEntry oi p.product_id with
  | some e =>
      rw [addOrderItem_eq_update h] at hx
      rcases mem_updateEntry_cases hx with ⟨hxo, _⟩ | ⟨y, hy, hk, hxy⟩
      · exact hent x hxo
      · subst hxy
        rcases entryWF_elim (hent y hy) with ⟨py, hry, hsy, hqy⟩
        have hpy : py = p := by
          rw [hk] at hry
          rw [hry] at hp
          exact Option.some.inj hp
        subst hpy
        refine entryWF_intro (p := py) ?_ ?_ ?_
        · show product_registry_by_id y.product_id = some py
          exact hry
        · show y.item_sales + py.price * q = py.price * (y.quantity + q)
          rw [hsy]
          ring
        · show 1 ≤ y.quantity + q
          omega
  | none =>
      rw [addOrderItem_eq_append h] at hx
      rcases List.mem_append.1 hx with hxo | hxn
      · exact hent x hxo
      · have hxf : x = freshEntry p q := by simpa using hxn
        subst hxf
        exact entryWF_intro (p := p) hp (by simp [freshEntry]) hq

theorem products_by_group_mem_catalog {p : Product} {g : String}
    (h : p ∈ products_by_group g) : p ∈ catalog_products :=
  List.mem_of_mem_filter h

/-! ## Lemmas about `pickOrderItems` -/

theorem pickAux_bounds (draws : List (Product × Bool)) :
    ∀ (oi : List BasketEntry) (tq : Nat), ((oi.map (fun x => x.product_id)).Nodup) →
      totalQty oi = (tq : Int) → tq ≤ 10 →
      totalQty (pickOrderItemsAux draws oi tq) ≤ 10
      ∧ (tq : Int) ≤ totalQty (pickOrderItemsAux draws oi tq)
      ∧ (draws ≠ [] → tq < 10 →
          (tq : Int) + 1 ≤ totalQty (pickOrderItemsAux draws oi tq)) := by
  induction draws with
  | nil =>
      intro oi tq hN hq hle
      refine ⟨by simp [pickOrderItemsAux, hq]; omega, by simp [pickOrderItemsAux, hq],
        by simp⟩
  | cons d rest ih =>
      intro oi tq hN hq hle
      obtain ⟨p, cont⟩ := d
      have hqty' : totalQty (addOrderItem oi p 1) = ((tq + 1 : Nat) : Int) := by
        rw [totalQty_addOrderItem hN, hq]
        push_cast
        ring
      have hN' := addOrderItem_nodup_keys (p := p) (q := 1) hN
      by_cases h10 : 10 ≤ tq
      · simp only [pickOrderItemsAux, if_pos h10]
        exact ⟨by omega, by omega, fun _ h => absurd h (by omega)⟩
      · by_cases h11 : 10 ≤ tq + 1
        · simp only [pickOrderItemsAux, if_neg h10, if_pos h11]
          refine ⟨by rw [hqty']; push_cast; omega, by rw [hqty']; push_cast; omega,
            fun _ _ => by rw [hqty']; push_cast; omega⟩
        · cases cont with
          | false =>
              simp only [pickOrderItemsAux, if_neg h10, if_neg h11, Bool.not_false,
                if_true]
              refine ⟨by rw [hqty']; push_cast; omega, by rw [hqty']; push_cast; omega,
                fun _ _ => by rw [hqty']; push_cast; omega⟩
          | true =>
              simp only [pickOrderItemsAux, if_neg h10, if_neg h11, Bool.not_true,
                if_false]
              rcases ih (addOrderItem oi p 1) (tq + 1) hN' hqty' (by omega) with
                ⟨hb1, hb2, _⟩
              exact ⟨hb1, by push_cast at hb2 ⊢; omega, fun _ _ => by
                push_cast at hb2 ⊢; omega⟩

theorem pickOrderItems_totalQty {draws : List (Product × Bool)} (h : draws ≠ []) :
    1 ≤ totalQty (pickOrderItems draws) ∧ totalQty (pickOrderItems draws) ≤ 10 := by
  rcases pickAux_bounds draws [] 0 (by simp) (by simp [totalQty]) (by omega) with
    ⟨h1, _, h3⟩
  exact ⟨by simpa using h3 h (by omega), h1⟩

theorem pickAux_wf (draws : List (Product × Bool)) :
    ∀ oi tq, WFBasket oi →
      (∀ pr ∈ draws, pr.1 ∈ products_by_group pr.1.group_name) →
      WFBasket (pickOrderItemsAux draws oi tq) := by
  induction draws with
  | nil =>
      intro oi tq hwf _
      simpa [pickOrderItemsAux] using hwf
  | cons d rest ih =>
      intro oi tq hwf hdr
      obtain ⟨p, cont⟩ := d
      have hp : product_registry_by_id p.product_id = some p :=
        reg_self_of_mem (products_by_group_mem_catalog (hdr (p, cont) (by simp)))
      have hwf' : WFBasket (addOrderItem oi p 1) :=
        WFBasket_addOrderItem hwf hp (by omega)
      by_cases h10 : 10 ≤ tq
      · simpa only [pickOrderItemsAux, if_pos h10] using hwf
      · by_cases h11 : 10 ≤ tq + 1
        · simpa only [pickOrderItemsAux, if_neg h10, if_pos h11] using hwf'
        · cases cont with
          | false =>
              simpa only [pickOrderItemsAux, if_neg h10, if_neg h11, Bool.not_false,
                if_true] using hwf'
          | true =>
              simp only [pickOrderItemsAux, if_neg h10, if_neg h11, Bool.not_true,
                if_false]
              exact ih _ _ hwf' (fun pr hpr => hdr pr (by simp [hpr]))

theorem pickOrderItems_wf {draws : List (Product × Bool)}
    (hdr : ∀ pr ∈ draws, pr.1 ∈ products_by_group pr.1.group_name) :
    WFBasket (pickOrderItems draws) :=
  pickAux_wf draws [] 0 ⟨by simp, by simp⟩ hdr

theorem pickOrderItems_ne_nil {draws : List (Product × Bool)} (h : draws ≠ []) :
    pickOrderItems draws ≠ [] := by
  intro hc
  have := (pickOrderItems_totalQty h).1
  rw [hc] at this
  simp [totalQty] at this

theorem mem_eligibleIds {oi : List BasketEntry} {pid : String}
    (h : pid ∈ eligibleIds oi) :
    IsEligiblePid pid ∧ ∃ entry ∈ oi, entry.product_id = pid := by
  induction oi with
  | nil => cases h
  | cons a rest ih =>
      rw [show eligibleIds (a :: rest) = eligChunk a ++ eligibleIds rest from rfl,
        List.mem_append] at h
      cases h with
      | inl h => exact ⟨eligChunk_elig h, a, by simp, (eligChunk_key h).symm⟩
      | inr h =>
          rcases ih h with ⟨h1, e, he, hk⟩
          exact ⟨h1, e, by simp [he], hk⟩

theorem findEntry_of_mem {oi : List BasketEntry}
    (hN : (oi.map (fun x => x.product_id)).Nodup) {y : BasketEntry} (hy : y ∈ oi) :
    findEntry oi y.product_id = some y := by
  induction oi with
  | nil => cases hy
  | cons a rest ih =>
      rw [List.map_cons, List.nodup_cons] at hN
      rcases List.mem_cons.1 hy with hya | hyr
      · subst hya
        rw [findEntry_cons, if_pos rfl]
      · rw [findEntry_cons, if_neg ?_]
        · exact ih hN.2 hyr
        · intro hk
          exact hN.1 (hk ▸ List.mem_map_of_mem (fun x => x.product_id) hyr)

theorem qtyOf_nonneg {oi : List BasketEntry} (hwf : WFBasket oi) (pid : String) :
    0 ≤ qtyOf oi pid := by
  unfold qtyOf
  cases hfe : findEntry oi pid with
  | none => simp
  | some e =>
      rcases entryWF_elim (hwf.2 e (findEntry_some_mem hfe)) with ⟨p, _, _, hq⟩
      show (0 : Int) ≤ e.quantity
      omega

theorem count_eligibleIds_le {oi : List BasketEntry} (hwf : WFBasket oi)
    (pid : String) : ((eligibleIds oi).count pid : Int) ≤ qtyOf oi pid := by
  obtain ⟨hN, hent⟩ := hwf
  induction oi with
  | nil => simp [eligibleIds, qtyOf, findEntry]
  | cons a rest ih =>
      rw [List.map_cons, List.nodup_cons] at hN
      rw [show eligibleIds (a :: rest) = eligChunk a ++ eligibleIds rest from rfl,
        List.count_append]
      have hchunk : ((eligChunk a).count pid : Int) ≤
          (if a.product_id = pid then a.quantity else 0) :=
        eligChunk_count_le (hent a (by simp))
      have hrest := ih hN.2 (fun e he => hent e (by simp [he]))
      unfold qtyOf
      rw [findEntry_cons]
      by_cases hk : a.product_id = pid
      · rw [if_pos hk]
        rw [if_pos hk] at hchunk
        have hzero : (eligibleIds rest).count pid = 0 := by
          rw [List.count_eq_zero]
          intro hmem
          rcases (mem_eligibleIds hmem).2 with ⟨e, he, hek⟩
          exact hN.1 (by rw [hk, ← hek]; exact List.mem_map_of_mem _ he)
        rw [hzero]
        push_cast
        omega
      · rw [if_neg hk]
        rw [if_neg hk] at hchunk
        unfold qtyOf at hrest
        push_cast
        omega

theorem addOrderItem_ne_nil {oi : List BasketEntry} {p : Product} {q : Int} :
    addOrderItem oi p q ≠ [] := by
  cases h : findEntry oi p.product_id with
  | some e =>
      rw [addOrderItem_eq_update h]
      intro hc
      have := findEntry_some_mem h
      rw [show oi = [] from by simpa [updateEntry] using congrArg List.length hc] at this
      simp at this
  | none =>
      rw [addOrderItem_eq_append h]
      exact List.append_ne_nil_of_right_ne_nil oi (by simp)

/-! ## The conversion loop specification -/

theorem convertStep_spec {oi : List BasketEntry} {pid : String}
    (hwf : WFBasket oi) (helig : IsEligiblePid pid) (hqty : 1 ≤ qtyOf oi pid) :
    ∃ oi3, convertStep oi pid = some oi3
      ∧ totalSales oi3 = totalSales oi + lamoon.price
      ∧ totalQty oi3 = totalQty oi
      ∧ WFBasket oi3
      ∧ qtyOf oi3 pid = qtyOf oi pid - 1
      ∧ (∀ q2, IsEligiblePid q2 → q2 ≠ pid → qtyOf oi3 q2 = qtyOf oi q2)
      ∧ findEntry oi3 lamoon.product_id = findEntry oi lamoon.product_id
      ∧ (∃ m ∈ oi3, m.product_id ≠ lamoon.product_id) := by
  obtain ⟨hN, hent⟩ := hwf
  rcases isEligiblePid_elim helig with ⟨p, hr, he⟩
  have hpid : p.product_id = pid := (reg_by_id_mem hr).2
  rcases duo_facts hr he with ⟨duo, hduo, hduop, hduoreg, hduoelig, hduolam, hplam⟩
  cases hfe : findEntry oi pid with
  | none => simp [qtyOf, hfe] at hqty
  | some e =>
  have hq0 : qtyOf oi pid = e.quantity := by simp [qtyOf, hfe]
  have hek : e.product_id = pid := findEntry_some_key hfe
  rcases entryWF_elim (hent e (findEntry_some_mem hfe)) with ⟨pe, hre, hse, hqe⟩
  have hpe : pe = p :=
    Option.some.inj
      ((show product_registry_by_id pid = some pe by rw [← hek]; exact hre).symm.trans hr)
  rw [hpe] at hse
  -- the two intermediate baskets of the loop body
  have hstep : convertStep oi pid
      = some (addOrderItem
          (if e.quantity - 1 ≤ 0 then removeEntry (updateEntry oi pid (stepFn p)) pid
           else updateEntry oi pid (stepFn p)) duo 1) := by
    simp only [convertStep, hr, hfe, hduo]
  have hN1 : ((updateEntry oi pid (stepFn p)).map (fun x => x.product_id)).Nodup := by
    rw [updateEntry_keys (f := stepFn p) (fun e => rfl)]
    exact hN
  have hfe1 : findEntry (updateEntry oi pid (stepFn p)) pid = some (stepFn p e) :=
    findEntry_updateEntry_self hfe (fun x => rfl)
  have hS1 : totalSales (updateEntry oi pid (stepFn p)) = totalSales oi - p.price := by
    have := sum_map_updateEntry (fun x => x.item_sales) hN hfe (f := stepFn p)
    simp only [totalSales, this, stepFn]
    ring
  have hQ1 : totalQty (updateEntry oi pid (stepFn p)) = totalQty oi - 1 := by
    have := sum_map_updateEntry (fun x => x.quantity) hN hfe (f := stepFn p)
    simp only [totalQty, this, stepFn]
    ring
  have hwf1cases : ∀ x ∈ updateEntry oi pid (stepFn p),
      (x ∈ oi ∧ x.product_id ≠ pid) ∨ x = stepFn p e := by
    intro x hx
    rcases mem_updateEntry_cases hx with hxo | ⟨y, hy, hyk, hxy⟩
    · exact Or.inl hxo
    · right
      have : findEntry oi y.product_id = some y := findEntry_of_mem hN hy
      rw [hyk, hfe] at this
      rw [hxy, Option.some.inj this]
  -- facts about the basket after decrement and conditional delete
  set oi2 := if e.quantity - 1 ≤ 0 then removeEntry (updateEntry oi pid (stepFn p)) pid
    else updateEntry oi pid (stepFn p) with hoi2
  have hN2 : (oi2.map (fun x => x.product_id)).Nodup := by
    rw [hoi2]
    by_cases hc : e.quantity - 1 ≤ 0
    · rw [if_pos hc]
      exact removeEntry_nodup_keys hN1
    · rw [if_neg hc]
      exact hN1
  have hS2 : totalSales oi2 = totalSales oi - e.item_sales + p.price * (e.quantity - 1) := by
    rw [hoi2]
    by_cases hc : e.quantity - 1 ≤ 0
    · have heq1 : e.quantity = 1 := by omega
      rw [if_pos hc]
      rw [show totalSales (removeEntry (updateEntry oi pid (stepFn p)) pid)
          = totalSales (updateEntry oi pid (stepFn p)) - (stepFn p e).item_sales from
        sum_map_removeEntry (fun x => x.item_sales) hN1 hfe1]
      rw [hS1]
      simp only [stepFn]
      rw [hse, heq1]
      ring
    · rw [if_neg hc, hS1, hse]
      ring
  have hQ2 : totalQty oi2 = totalQty oi - 1 := by
    rw [hoi2]
    by_cases hc : e.quantity - 1 ≤ 0
    · have heq1 : e.quantity = 1 := by omega
      rw [if_pos hc]
      rw [show totalQty (removeEntry (updateEntry oi pid (stepFn p)) pid)
          = totalQty (updateEntry oi pid (stepFn p)) - (stepFn p e).quantity from
        sum_map_removeEntry (fun x => x.quantity) hN1 hfe1]
      rw [hQ1]
      simp only [stepFn]
      rw [heq1]
      ring
    · rw [if_neg hc, hQ1]
  have hq2 : qtyOf oi2 pid = e.quantity - 1 := by
    rw [hoi2]
    by_cases hc : e.quantity - 1 ≤ 0
    · have heq1 : e.quantity = 1 := by omega
      rw [if_pos hc]
      unfold qtyOf
      rw [findEntry_removeEntry_self, heq1]
      simp
    · rw [if_neg hc]
      unfold qtyOf
      rw [hfe1]
      rfl
  have hwf2 : WFBasket oi2 := by
    refine ⟨hN2, ?_⟩
    intro x hx
    rw [hoi2] at hx
    by_cases hc : e.quantity - 1 ≤ 0
    · rw [if_pos hc] at hx
      have hx1 : x ∈ updateEntry oi pid (stepFn p) :=
        (List.mem_filter.1 hx).1
      have hxk : x.product_id ≠ pid := by
        have := (List.mem_filter.1 hx).2
        simpa using this
      rcases hwf1cases x hx1 with ⟨hxo, _⟩ | hxe
      · exact hent x hxo
      · rw [hxe] at hxk
        exact absurd hek hxk
    · rw [if_neg hc] at hx
      rcases hwf1cases x hx with ⟨hxo, _⟩ | hxe
      · exact hent x hxo
      · rw [hxe]
        refine entryWF_intro (p := p) ?_ ?_ ?_
        · show product_registry_by_id e.product_id = some p
          rw [hek]
          exact hr
        · show e.item_sales - p.price = p.price * (e.quantity - 1)
          rw [hse]
          ring
        · show 1 ≤ e.quantity - 1
          omega
  have hqne2 : ∀ q2, q2 ≠ pid → qtyOf oi2 q2 = qtyOf oi q2 := by
    intro q2 hq2ne
    unfold qtyOf
    rw [hoi2]
    by_cases hc : e.quantity - 1 ≤ 0
    · rw [if_pos hc, findEntry_removeEntry_ne hq2ne,
        findEntry_updateEntry_ne (f := stepFn p) hq2ne (fun x => rfl)]
    · rw [if_neg hc, findEntry_updateEntry_ne (f := stepFn p) hq2ne (fun x => rfl)]
  have hlam2 : findEntry oi2 lamoon.product_id = findEntry oi lamoon.product_id := by
    have hlp : lamoon.product_id ≠ pid := fun hc => hplam (hpid.trans hc.symm)
    rw [hoi2]
    by_cases hc : e.quantity - 1 ≤ 0
    · rw [if_pos hc, findEntry_removeEntry_ne hlp,
        findEntry_updateEntry_ne (f := stepFn p) hlp (fun x => rfl)]
    · rw [if_neg hc, findEntry_updateEntry_ne (f := stepFn p) hlp (fun x => rfl)]
  -- the bundle insertion
  have hpidduo : pid ≠ duo.product_id := by
    intro hc
    rw [hc] at hr
    rw [hduoreg] at hr
    rw [← Option.some.inj hr] at he
    rw [he] at hduoelig
    cases hduoelig
  refine ⟨addOrderItem oi2 duo 1, hstep, ?_, ?_, ?_, ?_, ?_, ?_, ?_⟩
  · rw [totalSales_addOrderItem hN2, hS2, hse, hduop]
    ring
  · rw [totalQty_addOrderItem hN2, hQ2]
    ring
  · exact WFBasket_addOrderItem hwf2 hduoreg (by omega)
  · have hskip : qtyOf (addOrderItem oi2 duo 1) pid = qtyOf oi2 pid := by
      unfold qtyOf
      rw [findEntry_addOrderItem_ne hpidduo]
    rw [hskip, hq2, hq0]
  · intro q2 helig2 hq2ne
    rcases isEligiblePid_elim helig2 with ⟨p2, hr2, he2⟩
    have hq2duo : q2 ≠ duo.product_id := by
      intro hc
      rw [hc] at hr2
      rw [hduoreg] at hr2
      rw [← Option.some.inj hr2] at he2
      rw [he2] at hduoelig
      cases hduoelig
    have hskip : qtyOf (addOrderItem oi2 duo 1) q2 = qtyOf oi2 q2 := by
      unfold qtyOf
      rw [findEntry_addOrderItem_ne hq2duo]
    rw [hskip]
    exact hqne2 q2 hq2ne
  · rw [findEntry_addOrderItem_ne (fun hc => hduolam hc.symm)]
    exact hlam2
  · rcases (show ∃ m, findEntry (addOrderItem oi2 duo 1) duo.product_id = some m
        from findEntry_addOrderItem_self) with ⟨m, hm⟩
    refine ⟨m, findEntry_some_mem hm, ?_⟩
    rw [findEntry_some_key hm]
    exact hduolam

/-- The conversion loop run over any list of references whose multiset is
dominated by the basket quantities: it succeeds, adds one accessory price to
the total per reference, preserves the unit count and well-formedness, leaves
the accessory entry untouched, and (when it ran at all) leaves a non-accessory
entry in the basket. -/
theorem runConversion_spec :
    ∀ (l : List String) (oi : List BasketEntry), WFBasket oi →
      (∀ pid ∈ l, IsEligiblePid pid) →
      (∀ pid, ((l.count pid : Int) ≤ qtyOf oi pid)) →
      ∃ oi', runConversion l oi = some oi'
        ∧ totalSales oi' = totalSales oi + lamoon.price * l.length
        ∧ totalQty oi' = totalQty oi
        ∧ WFBasket oi'
        ∧ findEntry oi' lamoon.product_id = findEntry oi lamoon.product_id
        ∧ (l ≠ [] → ∃ m ∈ oi', m.product_id ≠ lamoon.product_id) := by
  intro l
  induction l with
  | nil =>
      intro oi hwf _ _
      exact ⟨oi, rfl, by simp, rfl, hwf, rfl, by simp⟩
  | cons pid rest ih =>
      intro oi hwf helig hcount
      have hqty1 : 1 ≤ qtyOf oi pid := by
        have := hcount pid
        rw [List.count_cons_self] at this
        have hnn := qtyOf_nonneg hwf pid
        push_cast at this
        omega
      rcases convertStep_spec hwf (helig pid (by simp)) hqty1 with
        ⟨oi1, hstep, hS1, hQ1, hwf1, hqpid, hqne, hlam1, hm1⟩
      have hcount1 : ∀ q, ((rest.count q : Int) ≤ qtyOf oi1 q) := by
        intro q
        by_cases hq : q = pid
        · subst hq
          have := hcount q
          rw [List.count_cons_self] at this
          rw [hqpid]
          push_cast at this ⊢
          omega
        · by_cases hmem : q ∈ rest
          · rw [hqne q (helig q (by simp [hmem])) hq]
            have := hcount q
            rw [List.count_cons_of_ne (by simpa using hq)] at this
            exact this
          · rw [List.count_eq_zero.2 hmem]
            push_cast
            exact qtyOf_nonneg hwf1 q
      rcases ih oi1 hwf1 (fun q hq => helig q (by simp [hq])) hcount1 with
        ⟨oi', hrun, hS, hQ, hwf', hlam', hne'⟩
      refine ⟨oi', ?_, ?_, ?_, hwf', ?_, ?_⟩
      · show runConversion (pid :: rest) oi = some oi'
        unfold runConversion
        rw [hstep]
        exact hrun
      · rw [hS, hS1]
        simp only [List.length_cons]
        push_cast
        ring
      · rw [hQ, hQ1]
      · rw [hlam', hlam1]
      · intro _
        cases hrest : rest with
        | nil =>
            subst hrest
            have : oi' = oi1 := by
              rw [show runConversion [] oi1 = some oi1 from rfl] at hrun
              exact (Option.some.inj hrun).symm
            rw [this]
            exact hm1
        | cons a t =>
            exact hne' (by simp [hrest])

/-- The converting branch of `apply_duo_conversion`, as an equation: eligible
channel, accessory present, and a non-empty reference multiset. -/
theorem applyDuoConversion_eq_main {oi : List BasketEntry} {ch : String}
    (sh : List String) {le : BasketEntry}
    (hch : eligible_channels.contains ch = true)
    (hlf : findEntry oi lamoon.product_id = some le)
    (hempty : (eligibleIds oi).isEmpty = false) :
    applyDuoConversion oi ch sh =
      match runConversion
          (sh.take (min le.quantity ((eligibleIds oi).length : Int)).toNat) oi with
      | none => none
      | some oi' =>
        if le.quantity - min le.quantity ((eligibleIds oi).length : Int) ≤ 0
        then some (removeEntry oi' lamoon.product_id)
        else some (updateEntry oi' lamoon.product_id
          (lamoonFixFn (le.quantity - min le.quantity ((eligibleIds oi).length : Int)))) := by
  simp only [applyDuoConversion, hch, Bool.not_true, Bool.false_eq_true, if_false,
    hlf, hempty]

/-- Full specification of `apply_duo_conversion` on a well-formed basket with
a genuinely shuffled reference list: it succeeds, preserves the basket's total
sales, shrinks its total unit count by exactly the number of converted pairs,
and maps a non-empty basket to a non-empty basket. -/
theorem applyDuoConversion_spec {oi : List BasketEntry} {ch : String}
    {sh : List String} (hwf : WFBasket oi) (hperm : sh.Perm (eligibleIds oi)) :
    ∃ res, applyDuoConversion oi ch sh = some res
      ∧ totalSales res = totalSales oi
      ∧ totalQty res = totalQty oi - pairsConverted oi ch
      ∧ (oi ≠ [] → res ≠ []) := by
  cases hch : eligible_channels.contains ch with
  | false =>
      have hmem : ch ∉ eligible_channels := by simpa using hch
      refine ⟨oi, ?_, rfl, ?_, fun h => h⟩
      · simp [applyDuoConversion, hmem]
      · simp [pairsConverted, hmem]
  | true =>
  have hmemch : ch ∈ eligible_channels := by simpa using hch
  cases hlf : findEntry oi lamoon.product_id with
  | none =>
      refine ⟨oi, ?_, rfl, ?_, fun h => h⟩
      · simp [applyDuoConversion, hmemch, hlf]
      · simp [pairsConverted, hmemch, hlf]
  | some le =>
  have hlek : le.product_id = lamoon.product_id := findEntry_some_key hlf
  rcases entryWF_elim (hwf.2 le (findEntry_some_mem hlf)) with ⟨pl, hrl, hsl, hql⟩
  have hpl : pl = lamoon :=
    Option.some.inj
      ((show product_registry_by_id lamoon.product_id = some pl by
          rw [← hlek]; exact hrl).symm.trans lamoon_by_id)
  rw [hpl] at hsl
  cases hempty : (eligibleIds oi).isEmpty with
  | true =>
      have hnilp : eligibleIds oi = [] := by simpa using hempty
      refine ⟨oi, ?_, rfl, ?_, fun h => h⟩
      · simp [applyDuoConversion, hmemch, hlf, hnilp]
      · simp [pairsConverted, hmemch, hlf, hnilp]
  | false =>
  have hnil : eligibleIds oi ≠ [] := by
    intro hc
    rw [hc] at hempty
    simp at hempty
  have hlen : 1 ≤ (eligibleIds oi).length := List.length_pos.2 hnil
  set pairs : Int := min le.quantity ((eligibleIds oi).length : Int) with hpairs
  have hp1 : 1 ≤ pairs := le_min hql (by exact_mod_cast hlen)
  have hple : pairs ≤ le.quantity := min_le_left _ _
  have hplen : pairs ≤ ((eligibleIds oi).length : Int) := min_le_right _ _
  set l : List String := sh.take pairs.toNat with hl
  have helig : ∀ pid ∈ l, IsEligiblePid pid := by
    intro pid hpid
    have hsh : pid ∈ sh := (List.take_sublist _ _).subset hpid
    exact (mem_eligibleIds (hperm.mem_iff.1 hsh)).1
  have hcount : ∀ pid, ((l.count pid : Int) ≤ qtyOf oi pid) := by
    intro pid
    have h1 : l.count pid ≤ sh.count pid := (List.take_sublist _ _).count_le pid
    have h2 : sh.count pid = (eligibleIds oi).count pid := hperm.count_eq pid
    have h3 := count_eligibleIds_le hwf pid
    push_cast at h3 ⊢
    omega
  rcases runConversion_spec l oi hwf helig hcount with
    ⟨oi', hrun, hS, hQ, hwf', hlam', hne'⟩
  have hlenl : l.length = pairs.toNat := by
    rw [hl, List.length_take, hperm.length_eq]
    exact Nat.min_eq_left (by omega)
  have hcast : ((pairs.toNat : Nat) : Int) = pairs := Int.toNat_of_nonneg (by omega)
  have hlne : l ≠ [] := by
    intro hc
    rw [hc] at hlenl
    simp at hlenl
    omega
  have hlf' : findEntry oi' lamoon.product_id = some le := by rw [hlam']; exact hlf
  have hpc : pairsConverted oi ch = pairs := by
    rw [hpairs]
    simp [pairsConverted, hmemch, hlf, hnil]
  have hmain := applyDuoConversion_eq_main sh hch hlf hempty
  rw [← hpairs, ← hl, hrun] at hmain
  have hmain2 : applyDuoConversion oi ch sh =
      (if le.quantity - pairs ≤ 0 then some (removeEntry oi' lamoon.product_id)
       else some (updateEntry oi' lamoon.product_id
        (lamoonFixFn (le.quantity - pairs)))) := hmain
  by_cases hrem : le.quantity - pairs ≤ 0
  · have hpq : pairs = le.quantity := by omega
    rw [if_pos hrem] at hmain2
    refine ⟨removeEntry oi' lamoon.product_id, hmain2, ?_, ?_, ?_⟩
    · rw [show totalSales (removeEntry oi' lamoon.product_id)
          = totalSales oi' - le.item_sales from
        sum_map_removeEntry (fun x => x.item_sales) hwf'.1 hlf']
      rw [hS, hsl, hlenl, hcast, hpq]
      ring
    · rw [show totalQty (removeEntry oi' lamoon.product_id)
          = totalQty oi' - le.quantity from
        sum_map_removeEntry (fun x => x.quantity) hwf'.1 hlf']
      rw [hQ, hpc, hpq]
    · intro _
      rcases hne' hlne with ⟨m, hm, hmk⟩
      exact List.ne_nil_of_mem (mem_removeEntry hm hmk)
  · rw [if_neg hrem] at hmain2
    refine ⟨_, hmain2, ?_, ?_, ?_⟩
    · have hupd := sum_map_updateEntry (fun x => x.item_sales) hwf'.1 hlf'
        (f := lamoonFixFn (le.quantity - pairs))
      show totalSales (updateEntry oi' lamoon.product_id
          (lamoonFixFn (le.quantity - pairs))) = totalSales oi
      rw [show totalSales (updateEntry oi' lamoon.product_id
          (lamoonFixFn (le.quantity - pairs)))
          = totalSales oi' + ((lamoonFixFn (le.quantity - pairs) le).item_sales
              - le.item_sales) from hupd]
      rw [hS, hsl, hlenl, hcast]
      simp only [lamoonFixFn]
      ring
    · have hupd := sum_map_updateEntry (fun x => x.quantity) hwf'.1 hlf'
        (f := lamoonFixFn (le.quantity - pairs))
      show totalQty (updateEntry oi' lamoon.product_id
          (lamoonFixFn (le.quantity - pairs))) = totalQty oi - pairsConverted oi ch
      rw [show totalQty (updateEntry oi' lamoon.product_id
          (lamoonFixFn (le.quantity - pairs)))
          = totalQty oi' + ((lamoonFixFn (le.quantity - pairs) le).quantity
              - le.quantity) from hupd]
      rw [hQ, hpc]
      simp only [lamoonFixFn]
      ring
    · intro _
      rcases hne' hlne with ⟨m, hm, _⟩
      intro hc
      rw [show updateEntry oi' lamoon.product_id (lamoonFixFn (le.quantity - pairs))
          = List.map (fun e => if e.product_id == lamoon.product_id
              then lamoonFixFn (le.quantity - pairs) e else e) oi' from rfl] at hc
      rw [List.map_eq_nil_iff] at hc
      rw [hc] at hm
      cases hm

/-! ## Lemmas about dict accumulation (`accumBy`) -/

theorem bumpKey_ne_nil {acc : List (String × Int)} {k : String} {v : Int}
    (h : acc ≠ []) : bumpKey acc k v ≠ [] := by
  unfold bumpKey
  by_cases hc : acc.any (fun e => e.1 == k)
  · rw [if_pos hc]
    intro he
    rw [List.map_eq_nil_iff] at he
    exact h he
  · rw [if_neg hc]
    exact List.append_ne_nil_of_right_ne_nil acc (by simp)

theorem accumBy_ne_nil_of_acc {pairs : List (String × Int)} :
    ∀ {acc : List (String × Int)}, acc ≠ [] → accumBy acc pairs ≠ [] := by
  induction pairs with
  | nil => intro acc h; exact h
  | cons kv rest ih => intro acc h; exact ih (bumpKey_ne_nil h)

theorem accumBy_ne_nil {pairs : List (String × Int)} (h : pairs ≠ []) :
    accumBy [] pairs ≠ [] := by
  cases pairs with
  | nil => exact absurd rfl h
  | cons kv rest =>
      show accumBy (bumpKey [] kv.1 kv.2) rest ≠ []
      apply accumBy_ne_nil_of_acc
      simp [bumpKey]

theorem groupSalesOf_ne_nil {oi : List BasketEntry} (h : oi ≠ []) :
    groupSalesOf oi ≠ [] := by
  unfold groupSalesOf
  apply accumBy_ne_nil
  simpa using h

/-- The dominant-category pick does not depend on the random fallback draw
when the basket is non-empty. -/
theorem dominantGroup_fallback_free {oi : List BasketEntry} (h : oi ≠ [])
    (fb1 fb2 : String) : dominantGroup oi fb1 = dominantGroup oi fb2 := by
  unfold dominantGroup
  cases hgs : groupSalesOf oi with
  | nil => exact absurd hgs (groupSalesOf_ne_nil h)
  | cons kv rest => rfl

theorem bumpKey_keys_subset {acc : List (String × Int)} {k : String} {v : Int} :
    ∀ k2 ∈ (bumpKey acc k v).map Prod.fst, k2 ∈ acc.map Prod.fst ∨ k2 = k := by
  intro k2 hk2
  unfold bumpKey at hk2
  by_cases hc : acc.any (fun e => e.1 == k)
  · rw [if_pos hc] at hk2
    left
    rcases List.mem_map.1 hk2 with ⟨y, hy, hyk⟩
    rcases List.mem_map.1 hy with ⟨z, hz, hzy⟩
    by_cases hzk : z.1 = k
    · have : y.1 = z.1 := by rw [← hzy]; simp [hzk]
      rw [← hyk, this]
      exact List.mem_map_of_mem Prod.fst hz
    · have hb : (z.1 == k) = false := by simpa using hzk
      have : y = z := by rw [← hzy]; simp [hb]
      rw [← hyk, this]
      exact List.mem_map_of_mem Prod.fst hz
  · rw [if_neg hc] at hk2
    rw [List.map_append] at hk2
    rcases List.mem_append.1 hk2 with h1 | h2
    · exact Or.inl h1
    · right
      simpa using h2

theorem accumBy_keys_subset {pairs : List (String × Int)} :
    ∀ {acc : List (String × Int)} k2, k2 ∈ (accumBy acc pairs).map Prod.fst →
      k2 ∈ acc.map Prod.fst ∨ k2 ∈ pairs.map Prod.fst := by
  induction pairs with
  | nil => intro acc k2 h; exact Or.inl h
  | cons kv rest ih =>
      intro acc k2 h
      rcases ih k2 h with h1 | h2
      · rcases bumpKey_keys_subset k2 h1 with ha | hb
        · exact Or.inl ha
        · right
          rw [hb]
          simp
      · right
        simp [h2]

theorem lookupVal_eq_none {table : List (String × Int)} {k : String}
    (h : k ∉ table.map Prod.fst) : lookupVal table k = none := by
  unfold lookupVal
  rw [List.find?_eq_none.2]
  · rfl
  · intro kv hkv
    simp only [beq_iff_eq]
    intro hc
    exact h (hc ▸ List.mem_map_of_mem Prod.fst hkv)

/-! ## Lemmas about the synthesized records -/

theorem mkItemRecs_map_sales (order_id : String) :
    ∀ (i : Nat) (oi : List BasketEntry),
      (mkItemRecs order_id i oi).map (fun it => it.item_sales)
        = oi.map (fun e => e.item_sales) := by
  intro i oi
  induction oi generalizing i with
  | nil => rfl
  | cons e rest ih =>
      show (e.item_sales :: (mkItemRecs order_id (i + 1) rest).map
          (fun it => it.item_sales)) = e.item_sales :: rest.map (fun e => e.item_sales)
      rw [ih]

/-! ## Lemmas about `refresh_dashboard` -/

theorem isEmpty_false_of_ne_nil {α : Type} {l : List α} (h : l ≠ []) :
    l.isEmpty = false := by
  cases l with
  | nil => exact absurd rfl h
  | cons a t => rfl

/-- The main branch of `refresh_dashboard`, as one record equation. -/
theorem refresh_dashboard_main {rows : List Row} {period : String}
    {start_date end_date : SDate} {selected_months platforms groups : List String}
    {reference_date : SDate} (hpl : platforms ≠ []) (hgr : groups ≠ [])
    (hbase : items_base rows platforms groups ≠ []) :
    refresh_dashboard rows period start_date end_date selected_months platforms
        groups reference_date =
      { kpi_sales := some (((last_month_items_of rows platforms groups
            reference_date).map (fun r => r.item_sales)).sum)
        kpi_orders := some (nuniqueOrders (last_month_items_of rows platforms groups
            reference_date))
        kpi_aov := some (aov_kpi (items_for_charts rows period start_date end_date
            selected_months platforms groups))
        kpi_new := some (nuniqueOrders ((last_month_items_of rows platforms groups
            reference_date).filter (fun r => r.customer_status == "New")))
        kpi_new_share := some
          (if nuniqueOrders (last_month_items_of rows platforms groups
              reference_date) ≠ 0 then
            ((nuniqueOrders ((last_month_items_of rows platforms groups
                reference_date).filter (fun r => r.customer_status == "New")) : ℚ)
              / (nuniqueOrders (last_month_items_of rows platforms groups
                  reference_date) : ℚ)) * 100
          else 0)
        sales_trend := sales_trend_of period (items_for_charts rows period start_date
            end_date selected_months platforms groups) selected_months
        platform_sales := sortDescByVal (accumBy [] ((items_for_charts rows period
            start_date end_date selected_months platforms groups).map
            (fun r => (r.channel, r.item_sales))))
        group_sales := sortAscByVal (accumBy [] ((items_for_charts rows period
            start_date end_date selected_months platforms groups).map
            (fun r => (r.product_category, r.item_sales))))
        top_products := (sortDescByVal (accumBy [] ((items_for_charts rows period
            start_date end_date selected_months platforms groups).map
            (fun r => (product_rollup r, r.item_sales))))).take 5 } := by
  have h1 : (platforms.isEmpty || groups.isEmpty) = false := by
    rw [isEmpty_false_of_ne_nil hpl, isEmpty_false_of_ne_nil hgr]
    rfl
  have h2 : (items_base rows platforms groups).isEmpty = false :=
    isEmpty_false_of_ne_nil hbase
  simp only [refresh_dashboard, h1, Bool.false_eq_true, if_false, h2]

/-- Both blank branches of `refresh_dashboard` return `na_result`; this is the
empty-selection one. -/
theorem refresh_dashboard_blank {rows : List Row} {period : String}
    {start_date end_date : SDate} {selected_months platforms groups : List String}
    {reference_date : SDate} (h : platforms = [] ∨ groups = []) :
    refresh_dashboard rows period start_date end_date selected_months platforms
      groups reference_date = na_result := by
  rcases h with h | h <;> subst h <;> simp [refresh_dashboard]

/-- In daily mode the sales trend is the weekday list reindexed over the
grouped sums. -/
theorem sales_trend_of_daily (items : List Row) (selected_months : List String) :
    sales_trend_of "daily" items selected_months
      = week_order.map (fun lbl =>
          (lbl, lookupVal (accumBy [] (items.map
            (fun r => (period_label "daily" r, r.item_sales)))) lbl)) := by
  have h1 : (("daily" : String) == "monthly") = false := by decide
  have h2 : (("daily" : String) == "daily") = true := by decide
  have h3 : week_order.isEmpty = false := by decide
  simp only [sales_trend_of, x_order_of, h1, h2, Bool.false_eq_true, if_false,
    if_true, h3]

/-! ## Lemmas about the AOV KPI -/

theorem filterMap_eq_map_of_some {α β : Type} (f : α → Option β) (g : α → β)
    (l : List α) (h : ∀ a ∈ l, f a = some (g a)) : l.filterMap f = l.map g := by
  induction l with
  | nil => rfl
  | cons a rest ih =>
      rw [List.filterMap_cons, h a (by simp), List.map_cons,
        ih (fun x hx => h x (by simp [hx]))]

theorem month_keys_sub {items : List Row} {k : Int × Nat}
    (hk : k ∈ month_keys items) : ∃ r ∈ items, (r.date.year, r.date.month) = k := by
  have := List.mem_dedup.1 hk
  rcases List.mem_map.1 this with ⟨r, hr, hrk⟩
  exact ⟨r, hr, hrk⟩

theorem month_group_orders_pos {items : List Row} {k : Int × Nat}
    (hk : k ∈ month_keys items) : nuniqueOrders (month_group items k) ≠ 0 := by
  rcases month_keys_sub hk with ⟨r, hr, hrk⟩
  have hmem : r ∈ month_group items k := by
    refine List.mem_filter.2 ⟨hr, ?_⟩
    simpa using hrk
  intro hc
  unfold nuniqueOrders at hc
  rw [List.length_eq_zero] at hc
  have : r.order_id ∈ ((month_group items k).map (fun r => r.order_id)).dedup :=
    List.mem_dedup.2 (List.mem_map_of_mem _ hmem)
  rw [hc] at this
  cases this

/-- The AOV KPI on a non-empty filtered set is exactly the arithmetic mean of
the per-(year, month) sales-to-orders ratios. -/
theorem aov_kpi_eq_mean {items : List Row} (h : items ≠ []) :
    aov_kpi items =
      ((month_keys items).map (month_ratio items)).sum
        / ((month_keys items).length : ℚ) := by
  have hkeys : month_keys items ≠ [] := by
    intro hc
    unfold month_keys at hc
    rw [List.dedup_eq_nil, List.map_eq_nil_iff] at hc
    exact h hc
  have htable : monthly_aov_table items
      = (month_keys items).map (fun k =>
          (((month_group items k).map (fun r => r.item_sales)).sum,
            nuniqueOrders (month_group items k))) := rfl
  have hvals : (monthly_aov_table items).filterMap
        (fun sc => if sc.2 = 0 then none else some ((sc.1 : ℚ) / (sc.2 : ℚ)))
      = (month_keys items).map (month_ratio items) := by
    rw [htable, List.filterMap_map]
    refine filterMap_eq_map_of_some _ _ _ ?_
    intro k hk
    simp only [Function.comp]
    rw [if_neg (month_group_orders_pos hk)]
    rfl
  have htne : (monthly_aov_table items).isEmpty = false := by
    apply isEmpty_false_of_ne_nil
    rw [htable]
    intro hc
    rw [List.map_eq_nil_iff] at hc
    exact hkeys hc
  have hvne : ((month_keys items).map (month_ratio items)).isEmpty = false := by
    apply isEmpty_false_of_ne_nil
    intro hc
    rw [List.map_eq_nil_iff] at hc
    exact hkeys hc
  simp only [aov_kpi]
  rw [htne, hvals, hvne]
  simp only [Bool.false_eq_true, if_false, List.length_map]

/-- The AOV KPI is the defined value 0 when no calendar month is present. -/
theorem aov_kpi_no_months {items : List Row} (h : month_keys items = []) :
    aov_kpi items = 0 := by
  unfold aov_kpi monthly_aov_table
  rw [h]
  rfl

/-! ## The claims -/

/-- C1: bundle conversion is revenue-neutral — for every well-formed basket
and every channel, `apply_duo_conversion` succeeds and the total of
`item_sales` over all basket entries afterwards equals the total before; and
indeed every bundle SKU's price is constructed as the base item's price plus
the accessory's price. -/
theorem claim_C1 :
    (∀ (oi : List BasketEntry) (ch : String) (sh : List String),
      WFBasket oi → sh.Perm (eligibleIds oi) →
      ∃ res, applyDuoConversion oi ch sh = some res
        ∧ totalSales res = totalSales oi)
    ∧ (∀ p ∈ catalog_products, isEligibleBase p = true →
        ∃ duo, product_registry_by_name (duoNameFor p) = some duo
          ∧ duo.price = p.price + lamoon.price) := by
  constructor
  · intro oi ch sh hwf hperm
    rcases applyDuoConversion_spec hwf hperm with ⟨res, heq, hS, _, _⟩
    exact ⟨res, heq, hS⟩
  · intro p hp he
    rcases duo_facts (reg_self_of_mem hp) he with ⟨duo, hduo, hprice, _⟩
    exact ⟨duo, hduo, hprice⟩

theorem claim_C1_witness :
    WFBasket exBasketC1
    ∧ ["P002", "P002"].Perm (eligibleIds exBasketC1)
    ∧ (∃ res, applyDuoConversion exBasketC1 "Shopee" ["P002", "P002"] = some res
        ∧ totalSales res = totalSales exBasketC1) :=
  ⟨by decide, by decide,
    claim_C1.1 exBasketC1 "Shopee" ["P002", "P002"] (by decide) (by decide)⟩

/-- C2: for every synthesized order, the recorded `sales` field equals the
sum of `item_sales` over that order's emitted `OrderItem` records, both taken
after bundle conversion. -/
theorem claim_C2 :
    ∀ (base_day index : Nat) (d : OrderDraws) (o : OrderRec) (items : List ItemRec),
      synthesizeOrder base_day index d = some (o, items) →
      o.sales = (items.map (fun it => it.item_sales)).sum := by
  intro base_day index d o items h
  unfold synthesizeOrder at h
  cases hconv : applyDuoConversion (pickOrderItems d.item_draws) d.platform
      d.shuffled with
  | none => rw [hconv] at h; cases h
  | some conv =>
      rw [hconv] at h
      have hp := Option.some.inj h
      injection hp with h1 h2
      rw [← h1, ← h2, mkItemRecs_map_sales]
      rfl

theorem claim_C2_witness :
    synthesizeOrder 0 0 exOrderDrawsC2 = some (exOrderC2, exItemsC2)
    ∧ exOrderC2.sales = (exItemsC2.map (fun it => it.item_sales)).sum :=
  ⟨by decide, claim_C2 0 0 exOrderDrawsC2 exOrderC2 exItemsC2 (by decide)⟩

/-- C3: every synthesized basket holds between 1 and 10 units — the
`pick_order_items` loop always adds a first unit and stops no later than the
10-unit cap (stated for every non-exhausted draw stream). -/
theorem claim_C3 :
    ∀ draws : List (Product × Bool), draws ≠ [] →
      1 ≤ totalQty (pickOrderItems draws) ∧ totalQty (pickOrderItems draws) ≤ 10 :=
  fun _ h => pickOrderItems_totalQty h

theorem claim_C3_witness :
    exDrawsC3 ≠ []
    ∧ 1 ≤ totalQty (pickOrderItems exDrawsC3)
    ∧ totalQty (pickOrderItems exDrawsC3) ≤ 10 :=
  ⟨by decide, (claim_C3 exDrawsC3 (by decide)).1, (claim_C3 exDrawsC3 (by decide)).2⟩

/-- C4 counterexample: converting a basket of one `Original 1L` and one
`Lamoon cup` on Shopee yields a single bundle unit — 1 unit where the input
had 2 — so the total unit count is not preserved. -/
theorem claim_C4_counterexample :
    applyDuoConversion exBasketC4 "Shopee" ["P002"]
      = some [{ product_id := "P039", product_name := "Duo set Original 1L"
                product_category := "Duo set", base_name := "Original"
                size_ml := some 1000, quantity := 1, item_sales := 360 }]
    ∧ totalQty [({ product_id := "P039", product_name := "Duo set Original 1L"
                   product_category := "Duo set", base_name := "Original"
                   size_ml := some 1000, quantity := 1
                   item_sales := 360 } : BasketEntry)]
        ≠ totalQty exBasketC4 := by
  decide

/-- C4 (amended): each conversion removes one base unit and one accessory
unit and adds one bundle unit, so the total unit count after
`apply_duo_conversion` equals the count before minus the number of converted
pairs (`min(accessory quantity, eligible unit count)` on the converting path,
0 otherwise); in particular it never increases, but it is not preserved. -/
theorem claim_C4 :
    ∀ (oi : List BasketEntry) (ch : String) (sh : List String),
      WFBasket oi → sh.Perm (eligibleIds oi) →
      ∃ res, applyDuoConversion oi ch sh = some res
        ∧ totalQty res = totalQty oi - pairsConverted oi ch := by
  intro oi ch sh hwf hperm
  rcases applyDuoConversion_spec hwf hperm with ⟨res, heq, _, hQ, _⟩
  exact ⟨res, heq, hQ⟩

theorem claim_C4_witness :
    WFBasket exBasketC4
    ∧ ["P002"].Perm (eligibleIds exBasketC4)
    ∧ (∃ res, applyDuoConversion exBasketC4 "Shopee" ["P002"] = some res
        ∧ totalQty res = totalQty exBasketC4 - pairsConverted exBasketC4 "Shopee") :=
  ⟨by decide, by decide, claim_C4 exBasketC4 "Shopee" ["P002"] (by decide) (by decide)⟩

/-- C5 counterexample: in daily mode, filtering to one Tuesday with 500 in
sales yields a 7-entry series in which the absent weekdays carry a missing
(NaN) value, not the value zero — `reindex` has no `fill_value`. -/
theorem claim_C5_counterexample :
    (refresh_dashboard [exRowC5] "daily" ⟨2026, 10, 5⟩ ⟨2026, 10, 11⟩ []
        ["Shopee"] ["Cold brew"] ⟨2026, 10, 12⟩).sales_trend
      = [("Mon", none), ("Tue", some 500), ("Wed", none), ("Thu", none),
         ("Fri", none), ("Sat", none), ("Sun", none)]
    ∧ ("Mon", some (0 : Int))
        ∉ (refresh_dashboard [exRowC5] "daily" ⟨2026, 10, 5⟩ ⟨2026, 10, 11⟩ []
            ["Shopee"] ["Cold brew"] ⟨2026, 10, 12⟩).sales_trend := by
  decide

/-- C5 (amended): for every filter selection in daily mode (on the non-blank
path), the period sales series contains exactly 7 entries in the fixed order
Mon..Sun, and every weekday absent from the filtered data is present as an
entry carrying a missing (NaN) value — not omitted, but also not zero. -/
theorem claim_C5 :
    ∀ (rows : List Row) (s e : SDate) (months pl gr : List String) (ref : SDate),
      pl ≠ [] → gr ≠ [] → items_base rows pl gr ≠ [] →
      ((refresh_dashboard rows "daily" s e months pl gr ref).sales_trend).map
          Prod.fst = week_order
      ∧ (refresh_dashboard rows "daily" s e months pl gr ref).sales_trend.length = 7
      ∧ ∀ lbl ∈ week_order,
          lbl ∉ (items_for_charts rows "daily" s e months pl gr).map
            (period_label "daily") →
          (lbl, (none : Option Int))
            ∈ (refresh_dashboard rows "daily" s e months pl gr ref).sales_trend := by
  intro rows s e months pl gr ref hpl hgr hbase
  rw [refresh_dashboard_main hpl hgr hbase]
  simp only [AggResult.sales_trend]
  rw [sales_trend_of_daily]
  refine ⟨?_, ?_, ?_⟩
  · rw [List.map_map]
    exact List.map_id week_order
  · rw [List.length_map]
    rfl
  · intro lbl hlbl habs
    have hnone : lookupVal (accumBy [] ((items_for_charts rows "daily" s e months
        pl gr).map (fun r => (period_label "daily" r, r.item_sales)))) lbl = none := by
      apply lookupVal_eq_none
      intro hin
      rcases accumBy_keys_subset lbl hin with h0 | hkeys
      · cases h0
      · rw [List.map_map] at hkeys
        exact habs hkeys
    rw [← hnone]
    exact List.mem_map_of_mem (fun l => (l, lookupVal _ l)) hlbl

theorem claim_C5_witness :
    (["Shopee"] : List String) ≠ []
    ∧ (["Cold brew"] : List String) ≠ []
    ∧ items_base [exRowC5] ["Shopee"] ["Cold brew"] ≠ []
    ∧ ((refresh_dashboard [exRowC5] "daily" ⟨2026, 10, 5⟩ ⟨2026, 10, 11⟩ []
        ["Shopee"] ["Cold brew"] ⟨2026, 10, 12⟩).sales_trend).map Prod.fst
        = week_order
    ∧ ("Mon", (none : Option Int))
        ∈ (refresh_dashboard [exRowC5] "daily" ⟨2026, 10, 5⟩ ⟨2026, 10, 11⟩ []
            ["Shopee"] ["Cold brew"] ⟨2026, 10, 12⟩).sales_trend :=
  ⟨by decide, by decide, by decide,
    (claim_C5 [exRowC5] ⟨2026, 10, 5⟩ ⟨2026, 10, 11⟩ [] ["Shopee"] ["Cold brew"]
      ⟨2026, 10, 12⟩ (by decide) (by decide) (by decide)).1,
    (claim_C5 [exRowC5] ⟨2026, 10, 5⟩ ⟨2026, 10, 11⟩ [] ["Shopee"] ["Cold brew"]
      ⟨2026, 10, 12⟩ (by decide) (by decide) (by decide)).2.2 "Mon" (by decide)
      (by decide)⟩

/-- C6: the average-order-value KPI is the arithmetic mean, over the calendar
months present in the filtered period, of each month's sales-to-distinct-order
ratio; it is the defined value 0 when no month is present; and it differs from
the single range-wide sales-to-orders ratio (witnessed on a concrete period
whose months have unequal order volume). -/
theorem claim_C6 :
    (∀ items : List Row, items ≠ [] →
      aov_kpi items = ((month_keys items).map (month_ratio items)).sum
        / ((month_keys items).length : ℚ))
    ∧ (∀ items : List Row, month_keys items = [] → aov_kpi items = 0)
    ∧ aov_kpi exRowsC6
        ≠ (((exRowsC6.map (fun r => r.item_sales)).sum : Int) : ℚ)
            / ((nuniqueOrders exRowsC6 : Nat) : ℚ) := by
  refine ⟨?_, ?_, ?_⟩
  · intro items h
    exact aov_kpi_eq_mean h
  · intro items h
    exact aov_kpi_no_months h
  · have h1 : ((exRowsC6.map (fun r => r.item_sales)).sum : Int) = 200 := by decide
    have h2 : nuniqueOrders exRowsC6 = 3 := by decide
    have hne : exRowsC6 ≠ [] := by decide
    have hk : month_keys exRowsC6 = [((2026 : Int), (8 : Nat)), (2026, 9)] := by
      decide
    have hr1 : (((month_group exRowsC6 ((2026 : Int), (8 : Nat))).map
        (fun r => r.item_sales)).sum : Int) = 100 := by decide
    have ho1 : nuniqueOrders (month_group exRowsC6 ((2026 : Int), (8 : Nat))) = 1 := by
      decide
    have hr2 : (((month_group exRowsC6 ((2026 : Int), (9 : Nat))).map
        (fun r => r.item_sales)).sum : Int) = 100 := by decide
    have ho2 : nuniqueOrders (month_group exRowsC6 ((2026 : Int), (9 : Nat))) = 2 := by
      decide
    rw [aov_kpi_eq_mean hne, hk, h1, h2]
    simp only [List.map_cons, List.map_nil, List.sum_cons, List.sum_nil,
      List.length_cons, List.length_nil, month_ratio, hr1, ho1, hr2, ho2]
    norm_num

theorem claim_C6_witness :
    exRowsC6 ≠ []
    ∧ aov_kpi exRowsC6 = ((month_keys exRowsC6).map (month_ratio exRowsC6)).sum
        / ((month_keys exRowsC6).length : ℚ)
    ∧ aov_kpi ([] : List Row) = 0 :=
  ⟨by decide, claim_C6.1 exRowsC6 (by decide), claim_C6.2.1 [] (by decide)⟩

/-- C7: for every date range and period mode, an empty channel selection or an
empty category selection makes `refresh_dashboard` return the defined no-data
result — every KPI card not-applicable and every series empty — rather than
falling back to all channels or categories. -/
theorem claim_C7 :
    ∀ (rows : List Row) (period : String) (s e : SDate)
      (months pl gr : List String) (ref : SDate),
      pl = [] ∨ gr = [] →
      refresh_dashboard rows period s e months pl gr ref = na_result
      ∧ na_result.kpi_sales = none
      ∧ na_result.kpi_orders = none
      ∧ na_result.kpi_aov = none
      ∧ na_result.kpi_new = none
      ∧ na_result.kpi_new_share = none
      ∧ na_result.sales_trend = []
      ∧ na_result.platform_sales = []
      ∧ na_result.group_sales = []
      ∧ na_result.top_products = [] := by
  intro rows period s e months pl gr ref h
  exact ⟨refresh_dashboard_blank h, rfl, rfl, rfl, rfl, rfl, rfl, rfl, rfl, rfl⟩

theorem claim_C7_witness :
    (([] : List String) = [] ∨ (["Cold brew"] : List String) = [])
    ∧ refresh_dashboard [exRowC5] "custom" ⟨2026, 10, 5⟩ ⟨2026, 10, 11⟩ [] []
        ["Cold brew"] ⟨2026, 10, 12⟩ = na_result :=
  ⟨Or.inl rfl,
    (claim_C7 [exRowC5] "custom" ⟨2026, 10, 5⟩ ⟨2026, 10, 11⟩ [] [] ["Cold brew"]
      ⟨2026, 10, 12⟩ (Or.inl rfl)).1⟩

/-- C8 counterexample: the generator is seeded, but `make_mock_data` also
reads the wall clock (`base_date = today - 180 days`), so re-running with the
same seed on a different day shifts every timestamp: the same draw stream with
base days 0 and 1 produces different Order records. -/
theorem claim_C8_counterexample :
    synthesizeOrder 0 0 exOrderDrawsC8 ≠ synthesizeOrder 1 0 exOrderDrawsC8 := by
  decide

/-- C8 (amended): synthesis is deterministic given the seed AND the run date —
the per-order records are a pure function of the seeded draw stream and the
wall-clock base date, so two runs with the same seed, order count and current
date produce identical Order/OrderItem record sets; across different days the
date-derived fields differ. -/
theorem claim_C8 :
    ∀ (b1 b2 index : Nat) (d1 d2 : OrderDraws), b1 = b2 → d1 = d2 →
      synthesizeOrder b1 index d1 = synthesizeOrder b2 index d2 := by
  intro b1 b2 index d1 d2 hb hd
  rw [hb, hd]

theorem claim_C8_witness :
    (5 : Nat) = 5 ∧ exOrderDrawsC8 = exOrderDrawsC8
    ∧ synthesizeOrder 5 0 exOrderDrawsC8 = synthesizeOrder 5 0 exOrderDrawsC8 :=
  ⟨rfl, rfl, claim_C8 5 5 0 exOrderDrawsC8 exOrderDrawsC8 rfl rfl⟩

/-- C9: every synthesized order's basket is non-empty after bundle conversion,
so the dominant-category computation always has a non-empty `group_sales`
dict and the random-fallback branch is unreachable — the dominant category
does not depend on the fallback draw. -/
theorem claim_C9 :
    ∀ (draws : List (Product × Bool)) (ch : String) (sh : List String),
      draws ≠ [] →
      (∀ pr ∈ draws, pr.1 ∈ products_by_group pr.1.group_name) →
      sh.Perm (eligibleIds (pickOrderItems draws)) →
      ∃ res, applyDuoConversion (pickOrderItems draws) ch sh = some res
        ∧ res ≠ []
        ∧ groupSalesOf res ≠ []
        ∧ ∀ fb1 fb2, dominantGroup res fb1 = dominantGroup res fb2 := by
  intro draws ch sh h1 h2 h3
  rcases applyDuoConversion_spec (pickOrderItems_wf h2) h3 with
    ⟨res, heq, _, _, hne⟩
  have hres : res ≠ [] := hne (pickOrderItems_ne_nil h1)
  exact ⟨res, heq, hres, groupSalesOf_ne_nil hres,
    fun fb1 fb2 => dominantGroup_fallback_free hres fb1 fb2⟩

theorem claim_C9_witness :
    exDrawsC9 ≠ []
    ∧ (∀ pr ∈ exDrawsC9, pr.1 ∈ products_by_group pr.1.group_name)
    ∧ ["P002"].Perm (eligibleIds (pickOrderItems exDrawsC9))
    ∧ (∃ res, applyDuoConversion (pickOrderItems exDrawsC9) "Shopee" ["P002"]
        = some res ∧ res ≠ [] ∧ groupSalesOf res ≠ []
        ∧ ∀ fb1 fb2, dominantGroup res fb1 = dominantGroup res fb2) :=
  ⟨by decide, by decide, by decide,
    claim_C9 exDrawsC9 "Shopee" ["P002"] (by decide) (by decide) (by decide)⟩

/-- C10: the last-month KPI scalars (total sales, order count, new-customer
count and share) ignore only the selected date range — they are computed over
the channel- and category-filtered records restricted to the calendar month
preceding the reference date, so they still respect the platform and group
selections, and changing the period controls leaves them unchanged. -/
theorem claim_C10 :
    ∀ (rows : List Row) (period : String) (s e : SDate)
      (months pl gr : List String) (ref : SDate),
      pl ≠ [] → gr ≠ [] → items_base rows pl gr ≠ [] →
      (refresh_dashboard rows period s e months pl gr ref).kpi_sales
          = some (((last_month_items_of rows pl gr ref).map
              (fun r => r.item_sales)).sum)
      ∧ (refresh_dashboard rows period s e months pl gr ref).kpi_orders
          = some (nuniqueOrders (last_month_items_of rows pl gr ref))
      ∧ (refresh_dashboard rows period s e months pl gr ref).kpi_new
          = some (nuniqueOrders ((last_month_items_of rows pl gr ref).filter
              (fun r => r.customer_status == "New")))
      ∧ (refresh_dashboard rows period s e months pl gr ref).kpi_new_share
          = some (if nuniqueOrders (last_month_items_of rows pl gr ref) ≠ 0 then
              ((nuniqueOrders ((last_month_items_of rows pl gr ref).filter
                  (fun r => r.customer_status == "New")) : ℚ)
                / (nuniqueOrders (last_month_items_of rows pl gr ref) : ℚ)) * 100
            else 0)
      ∧ ∀ (period2 : String) (s2 e2 : SDate) (months2 : List String),
          (refresh_dashboard rows period2 s2 e2 months2 pl gr ref).kpi_sales
              = (refresh_dashboard rows period s e months pl gr ref).kpi_sales
          ∧ (refresh_dashboard rows period2 s2 e2 months2 pl gr ref).kpi_orders
              = (refresh_dashboard rows period s e months pl gr ref).kpi_orders
          ∧ (refresh_dashboard rows period2 s2 e2 months2 pl gr ref).kpi_new
              = (refresh_dashboard rows period s e months pl gr ref).kpi_new
          ∧ (refresh_dashboard rows period2 s2 e2 months2 pl gr ref).kpi_new_share
              = (refresh_dashboard rows period s e months pl gr ref).kpi_new_share := by
  intro rows period s e months pl gr ref hpl hgr hbase
  rw [refresh_dashboard_main hpl hgr hbase]
  refine ⟨rfl, rfl, rfl, rfl, ?_⟩
  intro period2 s2 e2 months2
  rw [refresh_dashboard_main hpl hgr hbase]
  exact ⟨rfl, rfl, rfl, rfl⟩

theorem claim_C10_witness :
    (["Shopee"] : List String) ≠ []
    ∧ (["Cold brew"] : List String) ≠ []
    ∧ items_base [exRowC5] ["Shopee"] ["Cold brew"] ≠ []
    ∧ (refresh_dashboard [exRowC5] "daily" ⟨2026, 10, 5⟩ ⟨2026, 10, 11⟩ []
        ["Shopee"] ["Cold brew"] ⟨2026, 10, 12⟩).kpi_sales
        = some (((last_month_items_of [exRowC5] ["Shopee"] ["Cold brew"]
            ⟨2026, 10, 12⟩).map (fun r => r.item_sales)).sum)
    ∧ (refresh_dashboard [exRowC5] "custom" ⟨2026, 1, 1⟩ ⟨2026, 12, 31⟩ []
        ["Shopee"] ["Cold brew"] ⟨2026, 10, 12⟩).kpi_sales
        = (refresh_dashboard [exRowC5] "daily" ⟨2026, 10, 5⟩ ⟨2026, 10, 11⟩ []
            ["Shopee"] ["Cold brew"] ⟨2026, 10, 12⟩).kpi_sales :=
  ⟨by decide, by decide, by decide,
    (claim_C10 [exRowC5] "daily" ⟨2026, 10, 5⟩ ⟨2026, 10, 11⟩ [] ["Shopee"]
      ["Cold brew"] ⟨2026, 10, 12⟩ (by decide) (by decide) (by decide)).1,
    ((claim_C10 [exRowC5] "daily" ⟨2026, 10, 5⟩ ⟨2026, 10, 11⟩ [] ["Shopee"]
      ["Cold brew"] ⟨2026, 10, 12⟩ (by decide) (by decide)
      (by decide)).2.2.2.2 "custom" ⟨2026, 1, 1⟩ ⟨2026, 12, 31⟩ []).1⟩
